import Mathlib

/-!
Verification of the orchestrator core: concurrency-bounded agent pool,
task queue, per-task execution lifecycle, budget ledger, and git-worktree
isolation/merge protocol.  Each definition is a shallow embedding of the
corresponding TypeScript source; JavaScript strings are modelled as `String`
(or `List Char` where character-level operations matter), JS numbers used as
money as `ℚ`, timestamps as `Nat`, and durations as `Int`.  Asynchronous
functions that may reject are embedded with `Except String` codomains;
external collaborators (the coding-agent session, the injected `exec`
function) are modelled as explicit oracles supplying their outcomes.
-/

/-! ## Types (src/types.ts)

`TaskTier` is a TypeScript union of six string literals; at runtime a tier is
a plain string, so tiers are modelled as `String` with the six known values
listed in `knownTiers`. -/

abbrev TaskTier := String

/-- The six tier strings of the `TaskTier` union type. -/
def knownTiers : List TaskTier :=
  ["trivial-simple", "trivial-code", "light", "standard", "complex", "deep"]

structure ModelSelection where
  provider : String
  modelId : String
  thinkingLevel : String
deriving Repr, DecidableEq

structure TokenUsage where
  input : Nat
  output : Nat
deriving Repr, DecidableEq

/-- `TaskResult` from src/types.ts.  `output` is the captured output modelled
as the list of its UTF-16 units; `costEstimate` is a JS number used as money,
modelled as `ℚ`. -/
structure TaskResult where
  taskId : String
  success : Bool
  output : List Char
  filesChanged : List String
  tokenUsage : TokenUsage
  costEstimate : ℚ
  durationMs : Int
  error : Option String
deriving Repr, DecidableEq

structure TaskDefinition where
  id : String
  prompt : String
  tier : TaskTier
  description : String
  cwd : Option String
  contextFiles : Option (List String)
  timeoutMs : Option Nat
deriving Repr, DecidableEq

/-! ## Model selector (src/model-selector.ts)

Both lookup functions are `switch` statements whose `default` arm throws
`Error("Invalid task tier: " + tier)`; the throw is modelled as
`Except.error`. -/

def selectModel (tier : TaskTier) : Except String ModelSelection :=
  if tier = "trivial-simple" then
    .ok { provider := "anthropic", modelId := "claude-3-haiku-20240307", thinkingLevel := "off" }
  else if tier = "trivial-code" then
    .ok { provider := "anthropic", modelId := "claude-3-5-haiku-latest", thinkingLevel := "off" }
  else if tier = "light" then
    .ok { provider := "anthropic", modelId := "claude-sonnet-4-5", thinkingLevel := "minimal" }
  else if tier = "standard" then
    .ok { provider := "anthropic", modelId := "claude-sonnet-4-5", thinkingLevel := "low" }
  else if tier = "complex" then
    .ok { provider := "anthropic", modelId := "claude-sonnet-4-5", thinkingLevel := "high" }
  else if tier = "deep" then
    .ok { provider := "anthropic", modelId := "claude-opus-4-5", thinkingLevel := "medium" }
  else
    .error ("Invalid task tier: " ++ tier)

structure BudgetThresholds where
  softWarning : ℚ
  hardFlag : ℚ
deriving Repr, DecidableEq

def getBudgetThresholds (tier : TaskTier) : Except String BudgetThresholds :=
  if tier = "trivial-simple" then .ok { softWarning := 0.05, hardFlag := 0.15 }
  else if tier = "trivial-code" then .ok { softWarning := 0.10, hardFlag := 0.25 }
  else if tier = "light" then .ok { softWarning := 0.50, hardFlag := 1.00 }
  else if tier = "standard" then .ok { softWarning := 2.00, hardFlag := 5.00 }
  else if tier = "complex" then .ok { softWarning := 10.00, hardFlag := 20.00 }
  else if tier = "deep" then .ok { softWarning := 25.00, hardFlag := 50.00 }
  else .error ("Invalid task tier: " ++ tier)

/-! ## Budget tracker (src/budget-tracker.ts) -/

structure BudgetRecord where
  taskId : String
  tier : TaskTier
  costEstimate : ℚ
  timestamp : Nat
deriving Repr, DecidableEq

inductive WarningKind
  | soft
  | hard
deriving Repr, DecidableEq

/-- Models `Number.prototype.toFixed(2)` on the exact rational value: round
to the nearest hundredth and print with two decimal digits. -/
def toFixed2 (q : ℚ) : String :=
  let n : Int := round (q * 100)
  let sign := if n < 0 then "-" else ""
  let m := n.natAbs
  let d := m % 100
  sign ++ toString (m / 100) ++ "." ++ (if d < 10 then "0" else "") ++ toString d

structure BudgetWarning where
  kind : WarningKind
  tier : TaskTier
  taskId : String
  cost : ℚ
  threshold : ℚ
  message : String
deriving Repr, DecidableEq

structure TierSummary where
  tier : TaskTier
  totalCost : ℚ
  taskCount : Nat
  averageCost : ℚ
  softWarning : ℚ
  hardFlag : ℚ
  overSoftCount : Nat
deriving Repr, DecidableEq

/-- In-memory state of `BudgetTracker`: the append-only record list and the
high-water-mark index of the last save. -/
structure BudgetTracker where
  records : List BudgetRecord
  lastSavedIndex : Nat
deriving Repr, DecidableEq

/-- The `BudgetRecord` built at the top of `recordTask`. -/
def mkBudgetRecord (result : TaskResult) (tier : TaskTier) (now : Nat) : BudgetRecord :=
  { taskId := result.taskId, tier := tier, costEstimate := result.costEstimate, timestamp := now }

def hardWarningFor (result : TaskResult) (tier : TaskTier) (th : BudgetThresholds) : BudgetWarning :=
  { kind := .hard, tier := tier, taskId := result.taskId, cost := result.costEstimate,
    threshold := th.hardFlag,
    message := "Task " ++ result.taskId ++ " exceeded hard budget limit for " ++ tier ++
      " tier ($" ++ toFixed2 result.costEstimate ++ " > $" ++ toFixed2 th.hardFlag ++ ")" }

def softWarningFor (result : TaskResult) (tier : TaskTier) (th : BudgetThresholds) : BudgetWarning :=
  { kind := .soft, tier := tier, taskId := result.taskId, cost := result.costEstimate,
    threshold := th.softWarning,
    message := "Task " ++ result.taskId ++ " exceeded soft budget warning for " ++ tier ++
      " tier ($" ++ toFixed2 result.costEstimate ++ " > $" ++ toFixed2 th.softWarning ++ ")" }

/-- The warning chosen by `recordTask` once the thresholds are known:
hard if cost exceeds the hard flag, else soft if it exceeds the soft
warning, else none. -/
def warningFor (result : TaskResult) (tier : TaskTier) (th : BudgetThresholds) :
    Option BudgetWarning :=
  if result.costEstimate > th.hardFlag then some (hardWarningFor result tier th)
  else if result.costEstimate > th.softWarning then some (softWarningFor result tier th)
  else none

/-- `BudgetTracker.recordTask`.  The record is pushed onto `records` before
the threshold lookup, so when `getBudgetThresholds` throws the push has
already happened; the pair therefore carries the updated tracker together
with the `Except` outcome of the rest of the method. -/
def BudgetTracker.recordTask (bt : BudgetTracker) (result : TaskResult) (tier : TaskTier)
    (now : Nat) : BudgetTracker × Except String (Option BudgetWarning) :=
  let bt2 : BudgetTracker := { bt with records := bt.records ++ [mkBudgetRecord result tier now] }
  match getBudgetThresholds tier with
  | .error e => (bt2, .error e)
  | .ok th => (bt2, .ok (warningFor result tier th))

/-- `BudgetTracker.getTierSummary`. -/
def BudgetTracker.getTierSummary (bt : BudgetTracker) (tier : TaskTier) :
    Except String TierSummary :=
  match getBudgetThresholds tier with
  | .error e => .error e
  | .ok th =>
    let tierRecords := bt.records.filter (fun r => r.tier == tier)
    if tierRecords.length = 0 then
      .ok { tier := tier, totalCost := 0, taskCount := 0, averageCost := 0,
            softWarning := th.softWarning, hardFlag := th.hardFlag, overSoftCount := 0 }
    else
      let totalCost := (tierRecords.map (fun r => r.costEstimate)).sum
      let overSoftCount :=
        (tierRecords.filter (fun r => decide (r.costEstimate > th.softWarning))).length
      .ok { tier := tier, totalCost := totalCost, taskCount := tierRecords.length,
            averageCost := totalCost / (tierRecords.length : ℚ),
            softWarning := th.softWarning, hardFlag := th.hardFlag,
            overSoftCount := overSoftCount }

/-- `BudgetTracker.getAllSummaries`: one summary per known tier, filtered to
tiers with at least one record. -/
def BudgetTracker.getAllSummaries (bt : BudgetTracker) : List TierSummary :=
  (knownTiers.filterMap (fun tier =>
    match bt.getTierSummary tier with
    | .ok s => some s
    | .error _ => none)).filter (fun s => decide (s.taskCount > 0))

/-- The durable storage the tracker persists to: whether the data directory
exists, and the budget-history file as the sequence of its JSONL records
(`none` = file absent).  `JSON.stringify`/`JSON.parse` of a record is
modelled as the identity on `BudgetRecord`, one record per line. -/
structure BudgetStorage where
  dirExists : Bool
  file : Option (List BudgetRecord)
deriving Repr, DecidableEq

/-- `BudgetTracker.save`: writes only the records past the high-water mark;
returns immediately (touching nothing) when there are none; otherwise
creates the data directory and appends to (or creates) the history file,
then advances the mark. -/
def BudgetTracker.save (bt : BudgetTracker) (fs : BudgetStorage) :
    BudgetTracker × BudgetStorage :=
  let newRecords := bt.records.drop bt.lastSavedIndex
  if newRecords.isEmpty then
    (bt, fs)
  else
    ({ bt with lastSavedIndex := bt.records.length },
     { dirExists := true, file := some ((fs.file.getD []) ++ newRecords) })

/-- `BudgetTracker.load`: a missing file yields an empty ledger; otherwise
the parsed records, with the high-water mark at the end. -/
def BudgetTracker.load (fs : BudgetStorage) : BudgetTracker :=
  match fs.file with
  | none => { records := [], lastSavedIndex := 0 }
  | some recs => { records := recs, lastSavedIndex := recs.length }

/-- Fold a list of completed tasks through `recordTask` (warnings ignored),
as the scheduler does over a run. -/
def recordAll (bt : BudgetTracker) (entries : List (TaskResult × TaskTier × Nat)) :
    BudgetTracker :=
  entries.foldl (fun b e => (b.recordTask e.1 e.2.1 e.2.2).1) bt

/-! ## Lifecycle manager (src/lifecycle-manager.ts)

`runTask` drives one external coding-agent session.  The external world is
an oracle: whether `getModel` found a model, whether session setup
(resource-loader reload / `createAgentSession`) rejected, the output deltas
accumulated by the subscription while `session.prompt` ran, whether
`session.prompt` itself rejected, whether the deadline timer fired before
natural completion, and the elapsed wall-clock milliseconds.  The method's
`try`/`catch` converts every raised error into a `TaskResult` with
`success := false`, so the embedding returns `Except.ok` on every path; the
`Except String` codomain is the honest type of an async function that could
in principle reject. -/

def DEFAULT_TIMEOUT_MS : Nat := 600000

def MAX_OUTPUT_LENGTH : Nat := 5000

/-- Output truncation on both exit paths: keep the last
`MAX_OUTPUT_LENGTH` units (`outputText.substring(outputText.length - MAX)`),
not the first. -/
def truncateOutput (s : List Char) : List Char :=
  if s.length > MAX_OUTPUT_LENGTH then s.drop (s.length - MAX_OUTPUT_LENGTH) else s

structure SessionOracle where
  modelFound : Bool
  setupError : Option String
  deltas : List (List Char)
  promptError : Option String
  timeoutFired : Bool
  elapsedMs : Nat
deriving Repr, DecidableEq

/-- The failed `TaskResult` built in the `catch` arm from the accumulated
output text and the raised error's message. -/
def mkFailedResult (task : TaskDefinition) (outputText : List Char) (msg : String)
    (elapsedMs : Nat) : TaskResult :=
  { taskId := task.id, success := false, output := truncateOutput outputText,
    filesChanged := [], tokenUsage := { input := 0, output := 0 }, costEstimate := 0,
    durationMs := (elapsedMs : Int), error := some msg }

/-- `LifecycleManager.runTask`.  Step order follows the source: tier lookup
via `selectModel` first (its throw lands in the catch arm with an empty
output buffer, as does a missing model or a setup rejection, since the
output subscription only feeds the buffer while `session.prompt` runs);
then the race between natural completion and the deadline timer; then
truncation and result construction. -/
def LifecycleManager.runTask (task : TaskDefinition) (o : SessionOracle) :
    Except String TaskResult :=
  let timeoutMs := task.timeoutMs.getD DEFAULT_TIMEOUT_MS
  match selectModel task.tier with
  | .error e => .ok (mkFailedResult task [] e o.elapsedMs)
  | .ok sel =>
    if !o.modelFound then
      .ok (mkFailedResult task [] ("Model not found: " ++ sel.provider ++ "/" ++ sel.modelId)
        o.elapsedMs)
    else
      match o.setupError with
      | some e => .ok (mkFailedResult task [] e o.elapsedMs)
      | none =>
        let outputText := o.deltas.flatten
        if o.timeoutFired then
          .ok (mkFailedResult task outputText
            ("Task timeout after " ++ toString timeoutMs ++ "ms") o.elapsedMs)
        else
          match o.promptError with
          | some e => .ok (mkFailedResult task outputText e o.elapsedMs)
          | none =>
            .ok { taskId := task.id, success := true, output := truncateOutput outputText,
                  filesChanged := [], tokenUsage := { input := 0, output := 0 },
                  costEstimate := 0, durationMs := (o.elapsedMs : Int), error := none }

/-! ## Worktree manager (src/worktree-manager.ts)

Two revisions of `mergeWorktree` exist in the repository: a rebase-based
protocol and a merge-based protocol (the rest of the class is identical).
Both are embedded.  The injected `exec` function is an oracle from the git
commands the class issues to their results; each call is also logged in a
chronological command trace so that "cleanup was executed" and "the rebase
or merge was aborted" are stated as trace membership. -/

structure WorktreeInfo where
  taskId : String
  worktreePath : String
  branchName : String
  repoPath : String
deriving Repr, DecidableEq

structure MergeResult where
  success : Bool
  mergedBranch : String
  conflictFiles : Option (List String)
  error : Option String
deriving Repr, DecidableEq

inductive GitCmd
  | revParseGitDir
  | symbolicRefOriginHead
  | branchListMainMaster
  | checkout (branch : String)
  | rebaseOnto (target branch : String)
  | checkoutTheirsAll
  | addAll
  | rebaseContinue
  | rebaseAbort
  | diffUnmerged
  | mergeNoFF (branch taskId : String)
  | mergeFFOnly (branch : String)
  | mergeAbort
  | worktreeRemove (taskId : String)
  | branchDelete (branch : String)
deriving Repr, DecidableEq

structure ExecResult where
  stdout : String
  stderr : String
  code : Int
deriving Repr, DecidableEq

def ExecOracle := GitCmd → ExecResult

/-- Whitespace removed by `String.prototype.trim` as it occurs in git
output. -/
def isWsChar (c : Char) : Bool :=
  c = ' ' || c = '\t' || c = '\n' || c = '\r'

/-- `trim()` on the character list of a JS string. -/
def trimChars (l : List Char) : List Char :=
  ((l.dropWhile isWsChar).reverse.dropWhile isWsChar).reverse

/-- `split("\n")` on the character list of a JS string: the (non-empty)
list of segments between newline separators. -/
def splitNewline : List Char → List (List Char)
  | [] => [[]]
  | c :: cs =>
    match splitNewline cs with
    | [] => [[]]
    | l :: ls => if c = '\n' then [] :: l :: ls else (c :: l) :: ls

/-- `split("\n").map(trim).filter(length > 0)`, shared by the changed-file
and conflict-file listings. -/
def parseFileLines (s : String) : List String :=
  ((splitNewline s.toList).map (fun l => String.mk (trimChars l))).filter
    (fun l => decide (0 < l.length))

/-- `WorktreeManager.cleanup`: remove the worktree, then delete the branch,
each with errors ignored; as a command trace it always issues both. -/
def WorktreeManager.cleanup (info : WorktreeInfo) : List GitCmd :=
  [.worktreeRemove info.taskId, .branchDelete info.branchName]

/-- Match `refs\/remotes\/origin\/(.+)` against the trimmed single-line
output of `git symbolic-ref refs/remotes/origin/HEAD`. -/
def stripMarker : List Char → List Char → Option (List Char)
  | [], rest => some rest
  | _ :: _, [] => none
  | m :: ms, c :: cs => if c = m then stripMarker ms cs else none

def parseOriginHead (out : String) : Option String :=
  match stripMarker "refs/remotes/origin/".toList (trimChars out.toList) with
  | some [] => none
  | some rest => some (String.mk rest)
  | none => none

/-- `WorktreeManager.getDefaultBranch`: remote default-branch pointer if
readable, else the first of the locally listed main/master branches, else
the literal "main".  Returns the branch paired with the commands issued. -/
def WorktreeManager.getDefaultBranch (o : ExecOracle) : String × List GitCmd :=
  let r1 := o .symbolicRefOriginHead
  match (if r1.code = 0 then parseOriginHead r1.stdout else none) with
  | some name => (name, [.symbolicRefOriginHead])
  | none =>
    let r2 := o .branchListMainMaster
    let branches := parseFileLines r2.stdout
    let name :=
      if r2.code = 0 then
        match branches with
        | b :: _ => b
        | [] => "main"
      else "main"
    (name, [.symbolicRefOriginHead, .branchListMainMaster])

/-- `targetBranch ?? await this.getDefaultBranch(info.repoPath)`. -/
def WorktreeManager.resolveTarget (o : ExecOracle) (targetBranch : Option String) :
    String × List GitCmd :=
  match targetBranch with
  | some t => (t, [])
  | none => WorktreeManager.getDefaultBranch o

/-- The merge-protocol `mergeWorktree`: check out the target (exit code
ignored), attempt a non-fast-forward merge; on success run cleanup and
report success, otherwise list unmerged paths, abort the merge, and report
failure with those paths. -/
def WorktreeManager.mergeWorktreeMerge (o : ExecOracle) (info : WorktreeInfo)
    (targetBranch : Option String) : MergeResult × List GitCmd :=
  let resolved := WorktreeManager.resolveTarget o targetBranch
  let target := resolved.1
  let tr1 := resolved.2 ++ [GitCmd.checkout target]
  let mres := o (.mergeNoFF info.branchName info.taskId)
  let tr2 := tr1 ++ [.mergeNoFF info.branchName info.taskId]
  if mres.code = 0 then
    ({ success := true, mergedBranch := info.branchName, conflictFiles := none, error := none },
     tr2 ++ WorktreeManager.cleanup info)
  else
    let dres := o .diffUnmerged
    ({ success := false, mergedBranch := info.branchName,
       conflictFiles := some (parseFileLines dres.stdout),
       error := some "Merge conflicts detected" },
     tr2 ++ [.diffUnmerged, .mergeAbort])

/-- The rebase-protocol `mergeWorktree`: rebase the agent branch onto the
target; on failure prefer the agent branch's version of every conflicting
path, stage everything, and continue; if the continuation still fails, list
unmerged paths, abort the rebase, and report failure; otherwise check out
the target, fast-forward the agent branch in (exit code ignored), run
cleanup, and report success. -/
def WorktreeManager.mergeWorktreeRebase (o : ExecOracle) (info : WorktreeInfo)
    (targetBranch : Option String) : MergeResult × List GitCmd :=
  let resolved := WorktreeManager.resolveTarget o targetBranch
  let target := resolved.1
  let rres := o (.rebaseOnto target info.branchName)
  let tr1 := resolved.2 ++ [GitCmd.rebaseOnto target info.branchName]
  if rres.code = 0 then
    ({ success := true, mergedBranch := info.branchName, conflictFiles := none, error := none },
     tr1 ++ [.checkout target, .mergeFFOnly info.branchName] ++ WorktreeManager.cleanup info)
  else
    let cres := o .rebaseContinue
    let tr2 := tr1 ++ [.checkoutTheirsAll, .addAll, .rebaseContinue]
    if cres.code = 0 then
      ({ success := true, mergedBranch := info.branchName, conflictFiles := none, error := none },
       tr2 ++ [.checkout target, .mergeFFOnly info.branchName] ++ WorktreeManager.cleanup info)
    else
      let dres := o .diffUnmerged
      ({ success := false, mergedBranch := info.branchName,
         conflictFiles := some (parseFileLines dres.stdout),
         error := some "Rebase conflicts could not be resolved" },
       tr2 ++ [.diffUnmerged, .rebaseAbort])

/-! ## Task queue (src/task-queue.ts) -/

structure TaskQueue where
  queue : List TaskDefinition
deriving Repr, DecidableEq

def TaskQueue.enqueue (q : TaskQueue) (task : TaskDefinition) : TaskQueue :=
  { queue := q.queue ++ [task] }

def TaskQueue.dequeue (q : TaskQueue) : Option TaskDefinition × TaskQueue :=
  match q.queue with
  | [] => (none, q)
  | t :: rest => (some t, { queue := rest })

def TaskQueue.peek (q : TaskQueue) : Option TaskDefinition :=
  q.queue.head?

def TaskQueue.size (q : TaskQueue) : Nat :=
  q.queue.length

def TaskQueue.isEmpty (q : TaskQueue) : Bool :=
  q.queue.length == 0

def TaskQueue.getAll (q : TaskQueue) : List TaskDefinition :=
  q.queue

def TaskQueue.removeById (q : TaskQueue) (taskId : String) : Bool × TaskQueue :=
  match q.queue.findIdx? (fun t => t.id == taskId) with
  | none => (false, q)
  | some i => (true, { queue := q.queue.take i ++ q.queue.drop (i + 1) })

/-! ## Agent pool (src/agent-pool.ts)

The pool's `agents` field is a JS `Map` keyed by task id; it is modelled as
a list of `AgentInfo` in insertion order with `mapSet`/`mapGet` giving the
`Map.set`/`Map.get` semantics (set replaces in place at an existing key,
appends otherwise).  The code mutates the `AgentInfo` object held in the
map; since the map stores the same reference, each mutation is embedded as
an in-place replacement at that key.  Calls the pool makes to the outside
world — dispatching a task to `lifecycleManager.runTask`, appending to the
budget ledger, and invoking the `onComplete`/`onFailed`/`onWarning` event
callbacks — are logged in order in a ghost `effects` trace. -/

inductive AgentStatus
  | queued
  | running
  | completed
  | failed
deriving Repr, DecidableEq

structure AgentInfo where
  taskId : String
  description : String
  status : AgentStatus
  tier : TaskTier
  startTime : Option Nat
  endTime : Option Nat
  result : Option TaskResult
deriving Repr, DecidableEq

inductive PoolEffect
  | dispatch (taskId : String)
  | budgetAppend (record : BudgetRecord)
  | warningCallback (w : BudgetWarning)
  | completeCallback (info : AgentInfo)
  | failedCallback (info : AgentInfo)
deriving Repr, DecidableEq

/-- The record `submit` creates before the capacity check. -/
def mkAgentInfo (task : TaskDefinition) : AgentInfo :=
  { taskId := task.id, description := task.description, status := .queued,
    tier := task.tier, startTime := none, endTime := none, result := none }


/-- `Map.get`. -/
def mapGet (l : List AgentInfo) (taskId : String) : Option AgentInfo :=
  l.find? (fun a => a.taskId == taskId)

/-- `Map.set`: replace in place at an existing key, append otherwise. -/
def mapSet (l : List AgentInfo) (info : AgentInfo) : List AgentInfo :=
  if l.any (fun a => a.taskId == info.taskId) then
    l.map (fun a => if a.taskId == info.taskId then info else a)
  else
    l ++ [info]

structure AgentPool where
  agents : List AgentInfo
  taskQueue : TaskQueue
  maxConcurrent : Nat
  budget : BudgetTracker
  effects : List PoolEffect
deriving Repr, DecidableEq

def AgentPool.getAgent (p : AgentPool) (taskId : String) : Option AgentInfo :=
  mapGet p.agents taskId

def AgentPool.getRunning (p : AgentPool) : List AgentInfo :=
  p.agents.filter (fun a => a.status == .running)

def AgentPool.getQueued (p : AgentPool) : List AgentInfo :=
  p.agents.filter (fun a => a.status == .queued)

def AgentPool.getCompleted (p : AgentPool) : List AgentInfo :=
  p.agents.filter (fun a => a.status == .completed)

def AgentPool.getAll (p : AgentPool) : List AgentInfo :=
  p.agents

def AgentPool.runningCount (p : AgentPool) : Nat :=
  p.getRunning.length

def AgentPool.queuedCount (p : AgentPool) : Nat :=
  p.getQueued.length

def AgentPool.hasCapacity (p : AgentPool) : Bool :=
  p.runningCount < p.maxConcurrent

/-- The mutation `startTask` performs on the record: status running, start
time stamped. -/
def startInfo (info : AgentInfo) (now : Nat) : AgentInfo :=
  { info with status := .running, startTime := some now }

/-- The mutation `handleTaskComplete` performs on the record: end time and
result stored, status set from `result.success`. -/
def finishInfo (info : AgentInfo) (result : TaskResult) (now : Nat) : AgentInfo :=
  { info with endTime := some now, result := some result,
              status := if result.success then .completed else .failed }

/-- `startTask`: set the record to running with its start time, and dispatch
to the lifecycle manager (fire and forget).  Returns the pool together with
the mutated record (the same object the map holds). -/
def AgentPool.startTask (p : AgentPool) (info : AgentInfo) (now : Nat) :
    AgentPool × AgentInfo :=
  let started : AgentInfo := startInfo info now
  ({ p with agents := mapSet p.agents started,
            effects := p.effects ++ [.dispatch info.taskId] }, started)

/-- `submit`: create the record with status queued, register it, then start
it immediately if the running count is under the maximum, else enqueue the
task.  Returns the pool with the record snapshot the caller sees. -/
def AgentPool.submit (p : AgentPool) (task : TaskDefinition) (now : Nat) :
    AgentPool × AgentInfo :=
  let info : AgentInfo := mkAgentInfo task
  let p1 : AgentPool := { p with agents := mapSet p.agents info }
  if p1.runningCount < p1.maxConcurrent then
    p1.startTask info now
  else
    ({ p1 with taskQueue := p1.taskQueue.enqueue task }, info)

/-- `startNextQueuedTask`: when there is capacity and the queue is
non-empty, dequeue the oldest task and start it (if its record is still in
the map). -/
def AgentPool.startNextQueuedTask (p : AgentPool) (now : Nat) : AgentPool :=
  if p.hasCapacity && !p.taskQueue.isEmpty then
    match p.taskQueue.dequeue with
    | (some nextTask, q2) =>
      match mapGet p.agents nextTask.id with
      | some info => (({ p with taskQueue := q2 }).startTask info now).1
      | none => { p with taskQueue := q2 }
    | (none, _) => p
  else p

/-- `handleTaskComplete`: set end time, result and final status on the
record, append to the budget ledger, forward any warning, invoke the
completion or failure callback, then try to start the next queued task.
When `recordTask` raises (unknown tier) the exception propagates out of the
completion continuation: the remaining steps are skipped but the mutations
already made stay. -/
def AgentPool.handleTaskComplete (p : AgentPool) (task : TaskDefinition) (info : AgentInfo)
    (result : TaskResult) (now : Nat) : AgentPool :=
  let finished : AgentInfo := finishInfo info result now
  let p1 : AgentPool := { p with agents := mapSet p.agents finished }
  let recorded := p1.budget.recordTask result task.tier now
  let p2 : AgentPool :=
    { p1 with budget := recorded.1,
              effects := p1.effects ++ [.budgetAppend (mkBudgetRecord result task.tier now)] }
  match recorded.2 with
  | .error _ => p2
  | .ok warnOpt =>
    let p3 : AgentPool :=
      match warnOpt with
      | some w => { p2 with effects := p2.effects ++ [.warningCallback w] }
      | none => p2
    let p4 : AgentPool :=
      { p3 with effects := p3.effects ++
          [if result.success then .completeCallback finished else .failedCallback finished] }
    p4.startNextQueuedTask now

/-- The completion continuation attached by `startTask` resolves the record
it closed over; in the map model that is the entry at the task's id (always
present, since `submit` registered it and nothing deletes entries). -/
def AgentPool.completeEvent (p : AgentPool) (task : TaskDefinition) (result : TaskResult)
    (now : Nat) : AgentPool :=
  match mapGet p.agents task.id with
  | some info => p.handleTaskComplete task info result now
  | none => p

/-- The failed `TaskResult` built in `startTask`'s rejection handler when
the lifecycle-manager promise rejects: zero counters, empty output, and the
rejection's message as the error string. -/
def rejectionResult (task : TaskDefinition) (info : AgentInfo) (msg : String) (now : Nat) :
    TaskResult :=
  { taskId := task.id, success := false, output := [], filesChanged := [],
    tokenUsage := { input := 0, output := 0 }, costEstimate := 0,
    durationMs := (now : Int) -
      (((match info.startTime with
         | some t => if t = 0 then now else t
         | none => now) : Nat) : Int),
    error := some msg }

/-- Events observable at the pool boundary: a submission, or the arrival of
a dispatched task's completion (the result covering both the resolve path
and the normalized reject path). -/
inductive PoolEvent
  | submitEvent (task : TaskDefinition) (now : Nat)
  | completeEvent (task : TaskDefinition) (result : TaskResult) (now : Nat)
deriving Repr, DecidableEq

def applyEvent (p : AgentPool) (e : PoolEvent) : AgentPool :=
  match e with
  | .submitEvent task now => (p.submit task now).1
  | .completeEvent task result now => p.completeEvent task result now

def initPool (maxConcurrent : Nat) : AgentPool :=
  { agents := [], taskQueue := { queue := [] }, maxConcurrent := maxConcurrent,
    budget := { records := [], lastSavedIndex := 0 }, effects := [] }

def runTrace (maxConcurrent : Nat) (events : List PoolEvent) : AgentPool :=
  events.foldl applyEvent (initPool maxConcurrent)

def submitAll (p : AgentPool) (tasks : List TaskDefinition) (now : Nat) : AgentPool :=
  tasks.foldl (fun s t => (s.submit t now).1) p

/-- Key list of the agents map. -/
def agentKeys (l : List AgentInfo) : List String :=
  l.map (fun a => a.taskId)

/-- The map never holds two records with the same task id (always true for
states the pool constructs). -/
def KeysNodup (l : List AgentInfo) : Prop :=
  (agentKeys l).Nodup

def countRunning (l : List AgentInfo) : Nat :=
  (l.filter (fun a => a.status == .running)).length

/-! ## Map-model lemmas

Supporting facts about `mapGet`/`mapSet` and running counts, used by the
pool theorems. -/

def runBit (a : AgentInfo) : Nat :=
  if a.status == .running then 1 else 0

theorem countRunning_append (l1 l2 : List AgentInfo) :
    countRunning (l1 ++ l2) = countRunning l1 + countRunning l2 := by
  simp [countRunning, List.filter_append]

theorem countRunning_cons (a : AgentInfo) (l : List AgentInfo) :
    countRunning (a :: l) = runBit a + countRunning l := by
  by_cases h : (a.status == AgentStatus.running) = true <;>
    simp [countRunning, runBit, List.filter_cons, h, Nat.add_comm]

theorem countRunning_singleton (a : AgentInfo) : countRunning [a] = runBit a := by
  simpa using countRunning_cons a []

theorem mapGet_some_beq {l : List AgentInfo} {id : String} {a : AgentInfo}
    (h : mapGet l id = some a) : (a.taskId == id) = true := by
  induction l with
  | nil => cases h
  | cons b t ih =>
    by_cases hb : (b.taskId == id) = true
    · have : some b = some a := by simpa [mapGet, List.find?, hb] using h
      rw [← Option.some.inj this]
      exact hb
    · exact ih (by simpa [mapGet, List.find?, hb] using h)

theorem mapGet_some_taskId {l : List AgentInfo} {id : String} {a : AgentInfo}
    (h : mapGet l id = some a) : a.taskId = id := by
  simpa using mapGet_some_beq h

theorem mapGet_some_mem {l : List AgentInfo} {id : String} {a : AgentInfo}
    (h : mapGet l id = some a) : a ∈ l := by
  induction l with
  | nil => cases h
  | cons b t ih =>
    by_cases hb : (b.taskId == id) = true
    · have : some b = some a := by simpa [mapGet, List.find?, hb] using h
      rw [← Option.some.inj this]
      exact List.mem_cons_self b t
    · exact List.mem_cons_of_mem _ (ih (by simpa [mapGet, List.find?, hb] using h))

theorem mapGet_eq_none_iff (l : List AgentInfo) (id : String) :
    mapGet l id = none ↔ ∀ a ∈ l, ¬(a.taskId == id) = true :=
  List.find?_eq_none

theorem keysNodup_cons (b : AgentInfo) (t : List AgentInfo) :
    KeysNodup (b :: t) ↔ b.taskId ∉ agentKeys t ∧ KeysNodup t := by
  simp [KeysNodup, agentKeys, List.nodup_cons]

theorem mapSet_found {l : List AgentInfo} {info a : AgentInfo}
    (h : mapGet l info.taskId = some a) :
    mapSet l info = l.map (fun b => if b.taskId == info.taskId then info else b) := by
  unfold mapSet
  rw [if_pos]
  exact List.any_eq_true.mpr ⟨a, mapGet_some_mem h, mapGet_some_beq h⟩

theorem mapSet_fresh {l : List AgentInfo} {info : AgentInfo}
    (h : mapGet l info.taskId = none) :
    mapSet l info = l ++ [info] := by
  unfold mapSet
  rw [if_neg]
  intro hany
  obtain ⟨a, hmem, hbeq⟩ := List.any_eq_true.mp hany
  exact (mapGet_eq_none_iff l info.taskId).mp h a hmem hbeq

theorem map_replace_of_none (l : List AgentInfo) (id : String) (info : AgentInfo)
    (h : ∀ b ∈ l, ¬(b.taskId == id) = true) :
    l.map (fun b => if b.taskId == id then info else b) = l := by
  induction l with
  | nil => rfl
  | cons b t ih =>
    have hb : ¬(b.taskId == id) = true := h b (List.mem_cons_self b t)
    simp only [List.map_cons, if_neg hb]
    rw [ih (fun c hc => h c (List.mem_cons_of_mem _ hc))]

theorem countRunning_replace (l : List AgentInfo) (id : String) (info : AgentInfo)
    (a : AgentInfo) (hn : KeysNodup l) (h : mapGet l id = some a) :
    countRunning (l.map (fun b => if b.taskId == id then info else b)) + runBit a
      = countRunning l + runBit info := by
  induction l with
  | nil => cases h
  | cons b t ih =>
    by_cases hb : (b.taskId == id) = true
    · have ha : a = b := by
        have : some b = some a := by simpa [mapGet, List.find?, hb] using h
        exact (Option.some.inj this).symm
      rw [ha]
      have hbid : b.taskId = id := by simpa using hb
      have hrest : ∀ c ∈ t, ¬(c.taskId == id) = true := by
        intro c hc hcid
        have hc2 : c.taskId = id := by simpa using hcid
        have hmem : b.taskId ∈ agentKeys t := by
          rw [hbid, ← hc2]
          exact List.mem_map_of_mem _ hc
        exact ((keysNodup_cons b t).mp hn).1 hmem
      simp only [List.map_cons, if_pos hb]
      rw [map_replace_of_none t id info hrest, countRunning_cons, countRunning_cons]
      omega
    · have h' : mapGet t id = some a := by simpa [mapGet, List.find?, hb] using h
      have hn' : KeysNodup t := ((keysNodup_cons b t).mp hn).2
      simp only [List.map_cons, if_neg hb]
      rw [countRunning_cons, countRunning_cons]
      have := ih hn' h'
      omega

theorem keys_map_replace (l : List AgentInfo) (id : String) (info : AgentInfo)
    (hid : info.taskId = id) :
    agentKeys (l.map (fun b => if b.taskId == id then info else b)) = agentKeys l := by
  induction l with
  | nil => rfl
  | cons b t ih =>
    by_cases hb : (b.taskId == id) = true
    · have hbid : b.taskId = id := by simpa using hb
      simp only [agentKeys, List.map_cons, if_pos hb] at *
      rw [hid, hbid, ih]
    · simp only [agentKeys, List.map_cons, if_neg hb] at *
      rw [ih]

theorem mapGet_replace_self (l : List AgentInfo) (id : String) (info a : AgentInfo)
    (h : mapGet l id = some a) (hid : (info.taskId == id) = true) :
    mapGet (l.map (fun b => if b.taskId == id then info else b)) id = some info := by
  induction l with
  | nil => cases h
  | cons b t ih =>
    by_cases hb : (b.taskId == id) = true
    · simp [mapGet, List.find?, hb, hid]
    · have h' : mapGet t id = some a := by simpa [mapGet, List.find?, hb] using h
      simpa [mapGet, List.find?, hb] using ih h'

theorem mapGet_replace_ne (l : List AgentInfo) (id : String) (info : AgentInfo)
    (id2 : String) (hinfo : ¬(info.taskId == id2) = true) (hne : id ≠ id2) :
    mapGet (l.map (fun b => if b.taskId == id then info else b)) id2 = mapGet l id2 := by
  induction l with
  | nil => rfl
  | cons b t ih =>
    by_cases hb : (b.taskId == id) = true
    · have hbid : b.taskId = id := by simpa using hb
      have hb2 : ¬(b.taskId == id2) = true := by
        simp [hbid]
        exact hne
      simpa [mapGet, List.find?, hb, hinfo, hb2] using ih
    · by_cases hb2 : (b.taskId == id2) = true
      · simp [mapGet, List.find?, hb, hb2]
      · simpa [mapGet, List.find?, hb, hb2] using ih

theorem mapGet_append_single (l : List AgentInfo) (b : AgentInfo) (id : String) :
    mapGet (l ++ [b]) id =
      match mapGet l id with
      | some a => some a
      | none => if b.taskId == id then some b else none := by
  induction l with
  | nil => cases hb : (b.taskId == id) <;> simp [mapGet, List.find?, hb]
  | cons c t ih =>
    by_cases hc : (c.taskId == id) = true
    · simp [mapGet, List.find?, hc]
    · simpa [mapGet, List.find?, hc] using ih

theorem mapGet_mapSet_self (l : List AgentInfo) (info : AgentInfo) :
    mapGet (mapSet l info) info.taskId = some info := by
  cases h : mapGet l info.taskId with
  | some a =>
    rw [mapSet_found h]
    exact mapGet_replace_self l info.taskId info a h (by simp)
  | none =>
    rw [mapSet_fresh h, mapGet_append_single, h]
    simp

theorem mapGet_mapSet_ne (l : List AgentInfo) (info : AgentInfo) (id2 : String)
    (hne : info.taskId ≠ id2) :
    mapGet (mapSet l info) id2 = mapGet l id2 := by
  cases h : mapGet l info.taskId with
  | some a =>
    rw [mapSet_found h]
    exact mapGet_replace_ne l info.taskId info id2 (by simpa using hne) hne
  | none =>
    rw [mapSet_fresh h, mapGet_append_single]
    cases h2 : mapGet l id2 <;> simp [hne]

theorem countRunning_mapSet_found (l : List AgentInfo) (info a : AgentInfo)
    (hn : KeysNodup l) (h : mapGet l info.taskId = some a) :
    countRunning (mapSet l info) + runBit a = countRunning l + runBit info := by
  rw [mapSet_found h]
  exact countRunning_replace l info.taskId info a hn h

theorem countRunning_mapSet_fresh (l : List AgentInfo) (info : AgentInfo)
    (h : mapGet l info.taskId = none) :
    countRunning (mapSet l info) = countRunning l + runBit info := by
  rw [mapSet_fresh h, countRunning_append, countRunning_singleton]

theorem countRunning_mapSet_le (l : List AgentInfo) (info : AgentInfo) (hn : KeysNodup l) :
    countRunning (mapSet l info) ≤ countRunning l + runBit info := by
  cases h : mapGet l info.taskId with
  | some a =>
    have := countRunning_mapSet_found l info a hn h
    omega
  | none =>
    rw [countRunning_mapSet_fresh l info h]

theorem keys_mapSet_found (l : List AgentInfo) (info a : AgentInfo)
    (h : mapGet l info.taskId = some a) :
    agentKeys (mapSet l info) = agentKeys l := by
  rw [mapSet_found h]
  exact keys_map_replace l info.taskId info rfl

theorem keys_mapSet_fresh (l : List AgentInfo) (info : AgentInfo)
    (h : mapGet l info.taskId = none) :
    agentKeys (mapSet l info) = agentKeys l ++ [info.taskId] := by
  rw [mapSet_fresh h]
  simp [agentKeys]

theorem keysNodup_mapSet (l : List AgentInfo) (info : AgentInfo) (hn : KeysNodup l) :
    KeysNodup (mapSet l info) := by
  cases h : mapGet l info.taskId with
  | some a =>
    unfold KeysNodup
    rw [keys_mapSet_found l info a h]
    exact hn
  | none =>
    unfold KeysNodup
    rw [keys_mapSet_fresh l info h]
    have hnotin : info.taskId ∉ agentKeys l := by
      intro hmem
      obtain ⟨b, hb, hbid⟩ := List.mem_map.mp hmem
      exact (mapGet_eq_none_iff l info.taskId).mp h b hb (by simp [hbid])
    have hn2 : (agentKeys l).Nodup := hn
    simp [List.nodup_append, hn2, hnotin]


/-! ## Pool well-formedness: the concurrency invariant

`PoolWF` holds of every state the pool can be in: the agents map has no
duplicate keys and the number of running records never exceeds the
configured maximum. -/

def PoolWF (p : AgentPool) : Prop :=
  KeysNodup p.agents ∧ countRunning p.agents ≤ p.maxConcurrent

theorem runningCount_eq (p : AgentPool) : p.runningCount = countRunning p.agents := rfl

theorem runBit_startInfo (info : AgentInfo) (now : Nat) : runBit (startInfo info now) = 1 := rfl

theorem runBit_mkAgentInfo (task : TaskDefinition) : runBit (mkAgentInfo task) = 0 := rfl

theorem runBit_finishInfo (info : AgentInfo) (result : TaskResult) (now : Nat) :
    runBit (finishInfo info result now) = 0 := by
  cases hs : result.success <;> simp [finishInfo, runBit, hs]

theorem taskId_startInfo (info : AgentInfo) (now : Nat) :
    (startInfo info now).taskId = info.taskId := rfl

theorem taskId_finishInfo (info : AgentInfo) (result : TaskResult) (now : Nat) :
    (finishInfo info result now).taskId = info.taskId := rfl

theorem startTask_eq (p : AgentPool) (info : AgentInfo) (now : Nat) :
    p.startTask info now =
      ({ p with agents := mapSet p.agents (startInfo info now),
                effects := p.effects ++ [.dispatch info.taskId] }, startInfo info now) := rfl

theorem submit_eq (p : AgentPool) (task : TaskDefinition) (now : Nat) :
    p.submit task now =
      (if countRunning (mapSet p.agents (mkAgentInfo task)) < p.maxConcurrent then
        ({ p with agents := mapSet p.agents (mkAgentInfo task) } : AgentPool).startTask
          (mkAgentInfo task) now
      else
        ({ p with agents := mapSet p.agents (mkAgentInfo task),
                  taskQueue := p.taskQueue.enqueue task }, mkAgentInfo task)) := rfl

theorem startNextQueuedTask_noCap (p : AgentPool) (now : Nat)
    (h : (p.hasCapacity && !p.taskQueue.isEmpty) = false) :
    p.startNextQueuedTask now = p := by
  simp [AgentPool.startNextQueuedTask, h]

theorem startNextQueuedTask_nil (p : AgentPool) (now : Nat)
    (hq : p.taskQueue.queue = []) :
    p.startNextQueuedTask now = p := by
  simp [AgentPool.startNextQueuedTask, TaskQueue.dequeue, hq]

theorem startNextQueuedTask_promote (p : AgentPool) (now : Nat) (t : TaskDefinition)
    (rest : List TaskDefinition) (info : AgentInfo)
    (hguard : (p.hasCapacity && !p.taskQueue.isEmpty) = true)
    (hq : p.taskQueue.queue = t :: rest)
    (hget : mapGet p.agents t.id = some info) :
    p.startNextQueuedTask now =
      (({ p with taskQueue := { queue := rest } } : AgentPool).startTask info now).1 := by
  simp [AgentPool.startNextQueuedTask, TaskQueue.dequeue, hq, hguard, hget]

theorem startNextQueuedTask_orphan (p : AgentPool) (now : Nat) (t : TaskDefinition)
    (rest : List TaskDefinition)
    (hguard : (p.hasCapacity && !p.taskQueue.isEmpty) = true)
    (hq : p.taskQueue.queue = t :: rest)
    (hget : mapGet p.agents t.id = none) :
    p.startNextQueuedTask now = { p with taskQueue := { queue := rest } } := by
  simp [AgentPool.startNextQueuedTask, TaskQueue.dequeue, hq, hguard, hget]

theorem handleTaskComplete_eq (p : AgentPool) (task : TaskDefinition) (info : AgentInfo)
    (result : TaskResult) (now : Nat) :
    p.handleTaskComplete task info result now =
      (match getBudgetThresholds task.tier with
       | .error _ =>
         { p with agents := mapSet p.agents (finishInfo info result now),
                  budget := { p.budget with
                    records := p.budget.records ++ [mkBudgetRecord result task.tier now] },
                  effects := p.effects ++ [.budgetAppend (mkBudgetRecord result task.tier now)] }
       | .ok th =>
         AgentPool.startNextQueuedTask
           { p with agents := mapSet p.agents (finishInfo info result now),
                    budget := { p.budget with
                      records := p.budget.records ++ [mkBudgetRecord result task.tier now] },
                    effects := p.effects ++ [.budgetAppend (mkBudgetRecord result task.tier now)] ++
                      ((warningFor result task.tier th).toList.map PoolEffect.warningCallback) ++
                      [if result.success then .completeCallback (finishInfo info result now)
                       else .failedCallback (finishInfo info result now)] }
           now) := by
  unfold AgentPool.handleTaskComplete BudgetTracker.recordTask
  cases hth : getBudgetThresholds task.tier with
  | error e => simp
  | ok th =>
    cases hwo : warningFor result task.tier th with
    | none => simp [hwo]
    | some w => simp [hwo]

theorem poolWF_startTask (p : AgentPool) (info : AgentInfo) (now : Nat)
    (hn : KeysNodup p.agents) :
    KeysNodup (p.startTask info now).1.agents ∧
      countRunning (p.startTask info now).1.agents ≤ countRunning p.agents + 1 := by
  rw [startTask_eq]
  refine ⟨keysNodup_mapSet _ _ hn, ?_⟩
  have h1 := countRunning_mapSet_le p.agents (startInfo info now) hn
  have h2 : runBit (startInfo info now) = 1 := rfl
  simp only at h1 ⊢
  omega

theorem poolWF_submit (p : AgentPool) (task : TaskDefinition) (now : Nat)
    (h : PoolWF p) :
    PoolWF (p.submit task now).1 ∧ (p.submit task now).1.maxConcurrent = p.maxConcurrent := by
  obtain ⟨hn, hc⟩ := h
  have hn1 : KeysNodup (mapSet p.agents (mkAgentInfo task)) := keysNodup_mapSet _ _ hn
  have hle : countRunning (mapSet p.agents (mkAgentInfo task)) ≤ countRunning p.agents := by
    have h1 := countRunning_mapSet_le p.agents (mkAgentInfo task) hn
    have h2 : runBit (mkAgentInfo task) = 0 := rfl
    omega
  rw [submit_eq]
  split
  · next hcap =>
    have hst := poolWF_startTask ({ p with agents := mapSet p.agents (mkAgentInfo task) })
      (mkAgentInfo task) now hn1
    refine ⟨⟨hst.1, ?_⟩, rfl⟩
    have h2 : countRunning ((({ p with agents := mapSet p.agents (mkAgentInfo task) } :
        AgentPool)).startTask (mkAgentInfo task) now).1.agents ≤
        countRunning (mapSet p.agents (mkAgentInfo task)) + 1 := hst.2
    have hmax : ((({ p with agents := mapSet p.agents (mkAgentInfo task) } :
        AgentPool)).startTask (mkAgentInfo task) now).1.maxConcurrent = p.maxConcurrent := rfl
    rw [hmax]
    omega
  · next hcap =>
    exact ⟨⟨hn1, le_trans hle hc⟩, rfl⟩

theorem poolWF_startNextQueuedTask (p : AgentPool) (now : Nat) (h : PoolWF p) :
    PoolWF (p.startNextQueuedTask now) ∧
      (p.startNextQueuedTask now).maxConcurrent = p.maxConcurrent := by
  obtain ⟨hn, hc⟩ := h
  by_cases hguard : (p.hasCapacity && !p.taskQueue.isEmpty) = true
  · have hcap : countRunning p.agents < p.maxConcurrent := by
      have h1 := ((Bool.and_eq_true _ _).mp hguard).1
      simpa [AgentPool.hasCapacity, runningCount_eq] using h1
    cases hq : p.taskQueue.queue with
    | nil =>
      rw [startNextQueuedTask_nil p now hq]
      exact ⟨⟨hn, hc⟩, rfl⟩
    | cons t rest =>
      cases hget : mapGet p.agents t.id with
      | some info =>
        rw [startNextQueuedTask_promote p now t rest info hguard hq hget]
        have hst := poolWF_startTask ({ p with taskQueue := { queue := rest } }) info now hn
        refine ⟨⟨hst.1, ?_⟩, rfl⟩
        have h2 : countRunning ((({ p with taskQueue := { queue := rest } } :
            AgentPool)).startTask info now).1.agents ≤ countRunning p.agents + 1 := hst.2
        have hmax : ((({ p with taskQueue := { queue := rest } } :
            AgentPool)).startTask info now).1.maxConcurrent = p.maxConcurrent := rfl
        rw [hmax]
        omega
      | none =>
        rw [startNextQueuedTask_orphan p now t rest hguard hq hget]
        exact ⟨⟨hn, hc⟩, rfl⟩
  · rw [startNextQueuedTask_noCap p now (by simpa using hguard)]
    exact ⟨⟨hn, hc⟩, rfl⟩

theorem poolWF_handleTaskComplete (p : AgentPool) (task : TaskDefinition)
    (info : AgentInfo) (result : TaskResult) (now : Nat) (h : PoolWF p) :
    PoolWF (p.handleTaskComplete task info result now) ∧
      (p.handleTaskComplete task info result now).maxConcurrent = p.maxConcurrent := by
  obtain ⟨hn, hc⟩ := h
  have hn1 : KeysNodup (mapSet p.agents (finishInfo info result now)) := keysNodup_mapSet _ _ hn
  have hle : countRunning (mapSet p.agents (finishInfo info result now)) ≤
      countRunning p.agents := by
    have h1 := countRunning_mapSet_le p.agents (finishInfo info result now) hn
    have h2 := runBit_finishInfo info result now
    omega
  rw [handleTaskComplete_eq]
  cases hth : getBudgetThresholds task.tier with
  | error e =>
    exact ⟨⟨hn1, le_trans hle hc⟩, rfl⟩
  | ok th =>
    have hstep := poolWF_startNextQueuedTask
      { p with agents := mapSet p.agents (finishInfo info result now),
               budget := { p.budget with
                 records := p.budget.records ++ [mkBudgetRecord result task.tier now] },
               effects := p.effects ++ [.budgetAppend (mkBudgetRecord result task.tier now)] ++
                 ((warningFor result task.tier th).toList.map PoolEffect.warningCallback) ++
                 [if result.success then .completeCallback (finishInfo info result now)
                  else .failedCallback (finishInfo info result now)] }
      now ⟨hn1, le_trans hle hc⟩
    exact ⟨hstep.1, hstep.2⟩

theorem poolWF_completeEvent (p : AgentPool) (task : TaskDefinition) (result : TaskResult)
    (now : Nat) (h : PoolWF p) :
    PoolWF (p.completeEvent task result now) ∧
      (p.completeEvent task result now).maxConcurrent = p.maxConcurrent := by
  unfold AgentPool.completeEvent
  cases hget : mapGet p.agents task.id with
  | none => exact ⟨h, rfl⟩
  | some info => exact poolWF_handleTaskComplete p task info result now h

theorem poolWF_applyEvent (p : AgentPool) (e : PoolEvent) (h : PoolWF p) :
    PoolWF (applyEvent p e) ∧ (applyEvent p e).maxConcurrent = p.maxConcurrent := by
  cases e with
  | submitEvent task now => exact poolWF_submit p task now h
  | completeEvent task result now => exact poolWF_completeEvent p task result now h

theorem poolWF_foldl (events : List PoolEvent) (p : AgentPool) (h : PoolWF p) :
    PoolWF (events.foldl applyEvent p) ∧
      (events.foldl applyEvent p).maxConcurrent = p.maxConcurrent := by
  induction events generalizing p with
  | nil => exact ⟨h, rfl⟩
  | cons e rest ih =>
    have hstep := poolWF_applyEvent p e h
    have hrest := ih (applyEvent p e) hstep.1
    exact ⟨hrest.1, hrest.2.trans hstep.2⟩

theorem poolWF_runTrace (maxConcurrent : Nat) (events : List PoolEvent) :
    PoolWF (runTrace maxConcurrent events) ∧
      (runTrace maxConcurrent events).maxConcurrent = maxConcurrent := by
  have hinit : PoolWF (initPool maxConcurrent) := by
    constructor
    · simp [KeysNodup, agentKeys, initPool]
    · simp [countRunning, initPool]
  exact poolWF_foldl events (initPool maxConcurrent) hinit

/-! ## Closed form of a burst of submissions -/

theorem submitAll_append (p : AgentPool) (tasks : List TaskDefinition) (t : TaskDefinition)
    (now : Nat) :
    submitAll p (tasks ++ [t]) now = ((submitAll p tasks now).submit t now).1 := by
  simp [submitAll, List.foldl_append]

theorem countRunning_map_started (ts : List TaskDefinition) (now : Nat) :
    countRunning (ts.map (fun t => startInfo (mkAgentInfo t) now)) = ts.length := by
  induction ts with
  | nil => rfl
  | cons a l ih =>
    rw [List.map_cons, countRunning_cons, ih, runBit_startInfo, List.length_cons]
    omega

theorem countRunning_map_queued (ts : List TaskDefinition) :
    countRunning (ts.map mkAgentInfo) = 0 := by
  induction ts with
  | nil => rfl
  | cons a l ih =>
    rw [List.map_cons, countRunning_cons, ih, runBit_mkAgentInfo]

theorem agentKeys_append (l1 l2 : List AgentInfo) :
    agentKeys (l1 ++ l2) = agentKeys l1 ++ agentKeys l2 := by
  simp [agentKeys]

theorem agentKeys_map_started (ts : List TaskDefinition) (now : Nat) :
    agentKeys (ts.map (fun t => startInfo (mkAgentInfo t) now)) = ts.map (fun t => t.id) := by
  rw [agentKeys, List.map_map]
  rfl

theorem agentKeys_map_queued (ts : List TaskDefinition) :
    agentKeys (ts.map mkAgentInfo) = ts.map (fun t => t.id) := by
  rw [agentKeys, List.map_map]
  rfl

theorem mapGet_eq_none_of_not_mem_keys (l : List AgentInfo) (id : String)
    (h : id ∉ agentKeys l) : mapGet l id = none := by
  rw [mapGet_eq_none_iff]
  intro a ha hbeq
  apply h
  have hid : a.taskId = id := by simpa using hbeq
  rw [← hid]
  exact List.mem_map_of_mem _ ha

/-- Closed form of submitting a burst of distinct-id tasks to a fresh pool:
the first `N` records are running (dispatched, in order), the rest are
queued records whose tasks sit in the queue in submission order. -/
theorem submitAll_closedForm (N : Nat) (now : Nat) (tasks : List TaskDefinition)
    (h : (tasks.map (fun t => t.id)).Nodup) :
    (submitAll (initPool N) tasks now).agents
        = (tasks.take N).map (fun t => startInfo (mkAgentInfo t) now)
            ++ (tasks.drop N).map mkAgentInfo ∧
      (submitAll (initPool N) tasks now).taskQueue.queue = tasks.drop N ∧
      (submitAll (initPool N) tasks now).effects
        = (tasks.take N).map (fun t => PoolEffect.dispatch t.id) ∧
      (submitAll (initPool N) tasks now).maxConcurrent = N ∧
      (submitAll (initPool N) tasks now).budget
        = { records := [], lastSavedIndex := 0 } := by
  induction tasks using List.reverseRecOn with
  | nil => simp [submitAll, initPool]
  | append_singleton ts t ih =>
    have hmap : (ts ++ [t]).map (fun x => x.id) = ts.map (fun x => x.id) ++ [t.id] := by simp
    rw [hmap] at h
    have hnd : (ts.map (fun x => x.id)).Nodup := (List.nodup_append.mp h).1
    have hfresh : t.id ∉ ts.map (fun x => x.id) := by
      intro hmem
      exact (List.nodup_append.mp h).2.2 hmem (List.mem_singleton_self _)
    obtain ⟨ihA, ihQ, ihE, ihM, ihB⟩ := ih hnd
    rw [submitAll_append]
    set s := submitAll (initPool N) ts now with hs
    have hkeys : agentKeys s.agents = ts.map (fun x => x.id) := by
      rw [ihA, agentKeys_append, agentKeys_map_started, agentKeys_map_queued,
        ← List.map_append, List.take_append_drop]
    have hgetnone : mapGet s.agents t.id = none :=
      mapGet_eq_none_of_not_mem_keys _ _ (by rw [hkeys]; exact hfresh)
    have hcount : countRunning s.agents = (ts.take N).length := by
      rw [ihA, countRunning_append, countRunning_map_started, countRunning_map_queued]
      omega
    have hmapset : mapSet s.agents (mkAgentInfo t) = s.agents ++ [mkAgentInfo t] :=
      mapSet_fresh hgetnone
    have hclen : countRunning (s.agents ++ [mkAgentInfo t]) = (ts.take N).length := by
      rw [countRunning_append, hcount, countRunning_singleton, runBit_mkAgentInfo]
      omega
    rw [submit_eq, hmapset, ihM]
    by_cases hM : ts.length < N
    · have hcond : countRunning (s.agents ++ [mkAgentInfo t]) < N := by
        rw [hclen, List.length_take]
        omega
      rw [if_pos hcond, startTask_eq]
      dsimp only
      have h0 : mapGet s.agents (startInfo (mkAgentInfo t) now).taskId = none := hgetnone
      have hfound : mapGet (s.agents ++ [mkAgentInfo t]) (startInfo (mkAgentInfo t) now).taskId
          = some (mkAgentInfo t) := by
        rw [mapGet_append_single, h0]
        simp [mkAgentInfo, startInfo]
      have hset2 : mapSet (s.agents ++ [mkAgentInfo t]) (startInfo (mkAgentInfo t) now)
          = s.agents ++ [startInfo (mkAgentInfo t) now] := by
        rw [mapSet_found hfound, List.map_append]
        congr 1
        · apply map_replace_of_none
          intro b hb hbeq
          apply hfresh
          have hbid : b.taskId = t.id := by simpa [startInfo, mkAgentInfo] using hbeq
          rw [← hbid]
          have hmem : b.taskId ∈ agentKeys s.agents := List.mem_map_of_mem _ hb
          rw [hkeys] at hmem
          exact hmem
        · simp [mkAgentInfo, startInfo]
      rw [hset2]
      have ht3 : ts.take N = ts := List.take_of_length_le (by omega)
      have ht4 : ts.drop N = [] := List.drop_eq_nil_of_le (by omega)
      have ht1 : (ts ++ [t]).take N = ts ++ [t] := by
        apply List.take_of_length_le
        rw [List.length_append, List.length_singleton]
        omega
      have ht2 : (ts ++ [t]).drop N = [] := by
        apply List.drop_eq_nil_of_le
        rw [List.length_append, List.length_singleton]
        omega
      refine ⟨?_, ?_, ?_, rfl, ihB⟩
      · rw [ihA, ht1, ht2, ht3, ht4]
        simp [List.map_append]
      · rw [ihQ, ht2, ht4]
      · rw [ihE, ht1, ht3]
        simp [List.map_append, mkAgentInfo]
    · have hcond : ¬ countRunning (s.agents ++ [mkAgentInfo t]) < N := by
        rw [hclen, List.length_take]
        omega
      rw [if_neg hcond]
      dsimp only
      have ht1 : (ts ++ [t]).take N = ts.take N := List.take_append_of_le_length (by omega)
      have ht2 : (ts ++ [t]).drop N = ts.drop N ++ [t] := List.drop_append_of_le_length (by omega)
      refine ⟨?_, ?_, ?_, rfl, ihB⟩
      · rw [ihA, ht1, ht2]
        simp [List.map_append]
      · simp only [TaskQueue.enqueue]
        rw [ihQ, ht2]
      · rw [ihE, ht1]

/-- The pool state reached inside `handleTaskComplete` right before
`startNextQueuedTask`: record finished, ledger appended, warning (if any)
and completion/failure callback fired. -/
def poolAfterCallbacks (p : AgentPool) (task : TaskDefinition) (info : AgentInfo)
    (result : TaskResult) (now : Nat) (th : BudgetThresholds) : AgentPool :=
  { p with
      agents := mapSet p.agents (finishInfo info result now),
      budget := { p.budget with
        records := p.budget.records ++ [mkBudgetRecord result task.tier now] },
      effects := p.effects ++ [.budgetAppend (mkBudgetRecord result task.tier now)] ++
        ((warningFor result task.tier th).toList.map PoolEffect.warningCallback) ++
        [if result.success then .completeCallback (finishInfo info result now)
         else .failedCallback (finishInfo info result now)] }

theorem handleTaskComplete_ok (p : AgentPool) (task : TaskDefinition) (info : AgentInfo)
    (result : TaskResult) (now : Nat) (th : BudgetThresholds)
    (hth : getBudgetThresholds task.tier = .ok th) :
    p.handleTaskComplete task info result now =
      (poolAfterCallbacks p task info result now th).startNextQueuedTask now := by
  rw [handleTaskComplete_eq, hth]
  dsimp only
  rw [poolAfterCallbacks]

theorem startNextQueuedTask_promote2 (p : AgentPool) (now : Nat) (t : TaskDefinition)
    (rest : List TaskDefinition) (b : AgentInfo)
    (hcap : countRunning p.agents < p.maxConcurrent)
    (hq : p.taskQueue.queue = t :: rest)
    (hget : mapGet p.agents t.id = some b) :
    p.startNextQueuedTask now =
      { p with taskQueue := { queue := rest },
               agents := mapSet p.agents (startInfo b now),
               effects := p.effects ++ [.dispatch b.taskId] } := by
  have hguard : (p.hasCapacity && !p.taskQueue.isEmpty) = true := by
    simp [AgentPool.hasCapacity, runningCount_eq, TaskQueue.isEmpty, hq, hcap]
  rw [startNextQueuedTask_promote p now t rest b hguard hq hget, startTask_eq]

/-- Arrival of a completion when the queue is empty: the record is finished,
the ledger appended, the warning (if any) and then the completion or failure
callback fired, and no dispatch happens. -/
theorem completeEvent_noQueue (p : AgentPool) (task : TaskDefinition) (info : AgentInfo)
    (result : TaskResult) (now : Nat) (th : BudgetThresholds)
    (ha : mapGet p.agents task.id = some info)
    (hth : getBudgetThresholds task.tier = .ok th)
    (hq : p.taskQueue.queue = []) :
    p.completeEvent task result now =
      { p with agents := mapSet p.agents (finishInfo info result now),
               budget := { p.budget with
                 records := p.budget.records ++ [mkBudgetRecord result task.tier now] },
               effects := p.effects ++ [.budgetAppend (mkBudgetRecord result task.tier now)] ++
                 ((warningFor result task.tier th).toList.map PoolEffect.warningCallback) ++
                 [if result.success then .completeCallback (finishInfo info result now)
                  else .failedCallback (finishInfo info result now)] } := by
  unfold AgentPool.completeEvent
  rw [ha]
  dsimp only
  rw [handleTaskComplete_eq, hth]
  dsimp only
  apply startNextQueuedTask_nil
  exact hq

/-- Arrival of a completion of a running record while a (distinct) task
waits at the head of the queue, within capacity: the record is finished,
ledger/warning/callback effects fire, then the queue head — and only it —
is dequeued, its record started, and its task dispatched. -/
theorem completeEvent_promote (p : AgentPool) (task : TaskDefinition) (info : AgentInfo)
    (result : TaskResult) (now : Nat) (th : BudgetThresholds) (t : TaskDefinition)
    (rest : List TaskDefinition) (b : AgentInfo)
    (hn : KeysNodup p.agents)
    (ha : mapGet p.agents task.id = some info)
    (hrun : info.status = .running)
    (hcnt : countRunning p.agents ≤ p.maxConcurrent)
    (hth : getBudgetThresholds task.tier = .ok th)
    (hq : p.taskQueue.queue = t :: rest)
    (hb : mapGet p.agents t.id = some b)
    (hne : t.id ≠ task.id) :
    p.completeEvent task result now =
      { p with
        agents := mapSet (mapSet p.agents (finishInfo info result now)) (startInfo b now),
        taskQueue := { queue := rest },
        budget := { p.budget with
          records := p.budget.records ++ [mkBudgetRecord result task.tier now] },
        effects := p.effects ++ [.budgetAppend (mkBudgetRecord result task.tier now)] ++
          ((warningFor result task.tier th).toList.map PoolEffect.warningCallback) ++
          [if result.success then .completeCallback (finishInfo info result now)
           else .failedCallback (finishInfo info result now)] ++ [.dispatch t.id] } := by
  have htid : info.taskId = task.id := mapGet_some_taskId ha
  have hbid : b.taskId = t.id := mapGet_some_taskId hb
  have hfin : (finishInfo info result now).taskId = task.id := by
    rw [taskId_finishInfo, htid]
  have hfound : mapGet p.agents (finishInfo info result now).taskId = some info := by
    rw [hfin]
    exact ha
  have hcnt1 : countRunning (mapSet p.agents (finishInfo info result now)) + 1
      = countRunning p.agents := by
    have hcf := countRunning_mapSet_found p.agents (finishInfo info result now) info hn hfound
    rw [runBit_finishInfo] at hcf
    have hr : runBit info = 1 := by simp [runBit, hrun]
    omega
  have hcap1 : countRunning (mapSet p.agents (finishInfo info result now)) < p.maxConcurrent := by
    omega
  have hbget : mapGet (mapSet p.agents (finishInfo info result now)) t.id = some b := by
    rw [mapGet_mapSet_ne]
    · exact hb
    · rw [hfin]
      exact fun hEq => hne hEq.symm
  have hcap2 : countRunning (poolAfterCallbacks p task info result now th).agents <
      (poolAfterCallbacks p task info result now th).maxConcurrent := hcap1
  have hq2 : (poolAfterCallbacks p task info result now th).taskQueue.queue = t :: rest := hq
  have hbget2 : mapGet (poolAfterCallbacks p task info result now th).agents t.id = some b :=
    hbget
  unfold AgentPool.completeEvent
  rw [ha]
  dsimp only
  rw [handleTaskComplete_ok p task info result now th hth,
    startNextQueuedTask_promote2 (poolAfterCallbacks p task info result now th) now t rest b
      hcap2 hq2 hbget2, hbid]
  simp [poolAfterCallbacks]

/-! ## Budget claims -/

theorem thresholds_soft_lt_hard (tier : TaskTier) (th : BudgetThresholds)
    (hth : getBudgetThresholds tier = .ok th) :
    th.softWarning < th.hardFlag := by
  unfold getBudgetThresholds at hth
  split_ifs at hth <;> cases hth <;> norm_num

theorem recordTask_fst (bt : BudgetTracker) (result : TaskResult) (tier : TaskTier)
    (now : Nat) :
    (bt.recordTask result tier now).1
      = { bt with records := bt.records ++ [mkBudgetRecord result tier now] } := by
  unfold BudgetTracker.recordTask
  cases getBudgetThresholds tier <;> rfl

theorem recordTask_snd (bt : BudgetTracker) (result : TaskResult) (tier : TaskTier)
    (now : Nat) (th : BudgetThresholds) (hth : getBudgetThresholds tier = .ok th) :
    (bt.recordTask result tier now).2 = .ok (warningFor result tier th) := by
  unfold BudgetTracker.recordTask
  rw [hth]

/-- A minimal `TaskResult` carrying a given cost, used for the concrete
budget examples. -/
def exampleResult (c : ℚ) : TaskResult :=
  { taskId := "task-x", success := true, output := [], filesChanged := [],
    tokenUsage := { input := 0, output := 0 }, costEstimate := c, durationMs := 0,
    error := none }

/-- C6: for every TaskResult and every known tier, `recordTask` appends
exactly one BudgetRecord and returns a hard warning (never a soft one) when
the cost exceeds the tier's hard threshold, a soft warning when it exceeds
only the soft threshold, and no warning otherwise; in particular for the
"light" tier (soft 0.50, hard 1.00), cost 0.25 gives no warning, 0.75 a
soft warning, and 1.50 a hard warning. -/
theorem C6_recordTask_thresholds (bt : BudgetTracker) (result : TaskResult)
    (tier : TaskTier) (now : Nat) (th : BudgetThresholds)
    (hth : getBudgetThresholds tier = .ok th) :
    ((bt.recordTask result tier now).1.records
        = bt.records ++ [mkBudgetRecord result tier now]) ∧
    ((bt.recordTask result tier now).2 = .ok (warningFor result tier th)) ∧
    (result.costEstimate > th.hardFlag →
      warningFor result tier th = some (hardWarningFor result tier th) ∧
        (hardWarningFor result tier th).kind = .hard) ∧
    (result.costEstimate ≤ th.hardFlag → result.costEstimate > th.softWarning →
      warningFor result tier th = some (softWarningFor result tier th) ∧
        (softWarningFor result tier th).kind = .soft) ∧
    (result.costEstimate ≤ th.softWarning → warningFor result tier th = none) ∧
    (((⟨[], 0⟩ : BudgetTracker).recordTask (exampleResult (1/4)) "light" 0).2
        = .ok none) ∧
    (((⟨[], 0⟩ : BudgetTracker).recordTask (exampleResult (3/4)) "light" 0).2
        = .ok (some (softWarningFor (exampleResult (3/4)) "light" ⟨0.50, 1.00⟩))) ∧
    (((⟨[], 0⟩ : BudgetTracker).recordTask (exampleResult (3/2)) "light" 0).2
        = .ok (some (hardWarningFor (exampleResult (3/2)) "light" ⟨0.50, 1.00⟩))) ∧
    (softWarningFor (exampleResult (3/4)) "light" ⟨0.50, 1.00⟩).kind = .soft ∧
    (hardWarningFor (exampleResult (3/2)) "light" ⟨0.50, 1.00⟩).kind = .hard := by
  have hlt := thresholds_soft_lt_hard tier th hth
  refine ⟨by rw [recordTask_fst], recordTask_snd bt result tier now th hth, ?_, ?_, ?_,
    ?_, ?_, ?_, rfl, rfl⟩
  · intro hh
    rw [warningFor, if_pos hh]
    exact ⟨rfl, rfl⟩
  · intro hh hs
    rw [warningFor, if_neg (by exact not_lt.mpr hh), if_pos hs]
    exact ⟨rfl, rfl⟩
  · intro hs
    rw [warningFor, if_neg, if_neg (by exact not_lt.mpr hs)]
    exact not_lt.mpr (le_trans hs (le_of_lt hlt))
  · rw [recordTask_snd ⟨[], 0⟩ (exampleResult (1/4)) "light" 0 ⟨0.50, 1.00⟩ rfl, warningFor,
      if_neg (by norm_num [exampleResult]), if_neg (by norm_num [exampleResult])]
  · rw [recordTask_snd ⟨[], 0⟩ (exampleResult (3/4)) "light" 0 ⟨0.50, 1.00⟩ rfl, warningFor,
      if_neg (by norm_num [exampleResult]), if_pos (by norm_num [exampleResult])]
  · rw [recordTask_snd ⟨[], 0⟩ (exampleResult (3/2)) "light" 0 ⟨0.50, 1.00⟩ rfl, warningFor,
      if_pos (by norm_num [exampleResult])]

/-- Witness for C6 at the "light" tier with cost 0.75. -/
theorem C6_witness :
    ((⟨[], 0⟩ : BudgetTracker).recordTask (exampleResult (3/4)) "light" 0).2
      = .ok (some (softWarningFor (exampleResult (3/4)) "light" ⟨0.50, 1.00⟩)) :=
  (C6_recordTask_thresholds ⟨[], 0⟩ (exampleResult (3/4)) "light" 0 ⟨0.50, 1.00⟩
    rfl).2.2.2.2.2.2.1

/-- C10: when the in-memory record count equals the high-water mark, `save`
is a complete no-op: no directory creation, no file write, tracker state
unchanged. -/
theorem C10_save_no_new_records (bt : BudgetTracker) (fs : BudgetStorage)
    (h : bt.records.length = bt.lastSavedIndex) :
    bt.save fs = (bt, fs) := by
  unfold BudgetTracker.save
  have hdrop : bt.records.drop bt.lastSavedIndex = [] :=
    List.drop_eq_nil_of_le (by omega)
  rw [hdrop]
  simp

/-- Witness for C10: a fresh empty ledger saved over absent storage touches
nothing — in particular the absent data directory is not created. -/
theorem C10_witness :
    BudgetTracker.save ⟨[], 0⟩ ⟨false, none⟩ = (⟨[], 0⟩, ⟨false, none⟩) :=
  C10_save_no_new_records ⟨[], 0⟩ ⟨false, none⟩ rfl

theorem getTierSummary_eq_of_records (bt1 bt2 : BudgetTracker) (tier : TaskTier)
    (h : bt1.records = bt2.records) :
    bt1.getTierSummary tier = bt2.getTierSummary tier := by
  unfold BudgetTracker.getTierSummary
  rw [h]

theorem recordAll_lastSavedIndex (entries : List (TaskResult × TaskTier × Nat))
    (bt : BudgetTracker) :
    (recordAll bt entries).lastSavedIndex = bt.lastSavedIndex := by
  induction entries generalizing bt with
  | nil => rfl
  | cons e rest ih =>
    calc (recordAll bt (e :: rest)).lastSavedIndex
        = (recordAll ((bt.recordTask e.1 e.2.1 e.2.2).1) rest).lastSavedIndex := rfl
      _ = ((bt.recordTask e.1 e.2.1 e.2.2).1).lastSavedIndex := ih _
      _ = bt.lastSavedIndex := by rw [recordTask_fst]

theorem save_noop (bt : BudgetTracker) (fs : BudgetStorage)
    (h : bt.records.length ≤ bt.lastSavedIndex) :
    bt.save fs = (bt, fs) := by
  unfold BudgetTracker.save
  have hdrop : bt.records.drop bt.lastSavedIndex = [] := List.drop_eq_nil_of_le h
  rw [hdrop]
  simp

theorem save_writes (bt : BudgetTracker) (fs : BudgetStorage)
    (h : bt.records.drop bt.lastSavedIndex ≠ []) :
    bt.save fs = ({ bt with lastSavedIndex := bt.records.length },
      { dirExists := true,
        file := some ((fs.file.getD []) ++ bt.records.drop bt.lastSavedIndex) }) := by
  unfold BudgetTracker.save
  have hne : (bt.records.drop bt.lastSavedIndex).isEmpty = false := by
    cases hk : bt.records.drop bt.lastSavedIndex with
    | nil => exact absurd hk h
    | cons a l => rfl
  simp [hne]

/-- C7: recording any sequence of entries on a fresh ledger, saving to
fresh storage, and loading that storage into a fresh ledger yields
identical per-tier summaries for every tier; and a second save with no
entries recorded in between is a no-op on tracker and persisted file
alike — `save` writes only the records past the high-water mark. -/
theorem C7_ledger_roundtrip (entries : List (TaskResult × TaskTier × Nat))
    (fs0 : BudgetStorage) (hfile : fs0.file = none) :
    (∀ tier : TaskTier,
      (BudgetTracker.load ((recordAll ⟨[], 0⟩ entries).save fs0).2).getTierSummary tier
        = (recordAll ⟨[], 0⟩ entries).getTierSummary tier) ∧
    ((recordAll ⟨[], 0⟩ entries).save fs0).1.save ((recordAll ⟨[], 0⟩ entries).save fs0).2
      = (recordAll ⟨[], 0⟩ entries).save fs0 := by
  have hidx : (recordAll ⟨[], 0⟩ entries).lastSavedIndex = 0 :=
    recordAll_lastSavedIndex entries ⟨[], 0⟩
  by_cases hrec : (recordAll ⟨[], 0⟩ entries).records = []
  · have hsave : (recordAll ⟨[], 0⟩ entries).save fs0 = (recordAll ⟨[], 0⟩ entries, fs0) :=
      save_noop _ _ (by rw [hrec, hidx]; exact Nat.le_refl 0)
    rw [hsave]
    constructor
    · intro tier
      have hload : BudgetTracker.load fs0 = ⟨[], 0⟩ := by
        unfold BudgetTracker.load
        rw [hfile]
      rw [hload]
      exact getTierSummary_eq_of_records _ _ _ (by rw [hrec])
    · exact hsave
  · have hdrop : (recordAll ⟨[], 0⟩ entries).records.drop
        (recordAll ⟨[], 0⟩ entries).lastSavedIndex = (recordAll ⟨[], 0⟩ entries).records := by
      rw [hidx, List.drop_zero]
    have hsave : (recordAll ⟨[], 0⟩ entries).save fs0 =
        ({ recordAll ⟨[], 0⟩ entries with
            lastSavedIndex := (recordAll ⟨[], 0⟩ entries).records.length },
          { dirExists := true, file := some ((recordAll ⟨[], 0⟩ entries).records) }) := by
      rw [save_writes _ _ (by rw [hdrop]; exact hrec), hdrop, hfile]
      rfl
    rw [hsave]
    constructor
    · intro tier
      exact getTierSummary_eq_of_records _ _ _ rfl
    · exact save_noop _ _ (by simp)

/-- Witness for C7: one recorded light-tier entry round-trips. -/
theorem C7_witness :
    (BudgetTracker.load
        ((recordAll ⟨[], 0⟩ [(exampleResult (3/4), "light", 5)]).save ⟨false, none⟩).2
      ).getTierSummary "light"
        = (recordAll ⟨[], 0⟩ [(exampleResult (3/4), "light", 5)]).getTierSummary "light" ∧
    ((recordAll ⟨[], 0⟩ [(exampleResult (3/4), "light", 5)]).save ⟨false, none⟩).1.save
        ((recordAll ⟨[], 0⟩ [(exampleResult (3/4), "light", 5)]).save ⟨false, none⟩).2
      = (recordAll ⟨[], 0⟩ [(exampleResult (3/4), "light", 5)]).save ⟨false, none⟩ :=
  ⟨(C7_ledger_roundtrip [(exampleResult (3/4), "light", 5)] ⟨false, none⟩ rfl).1 "light",
   (C7_ledger_roundtrip [(exampleResult (3/4), "light", 5)] ⟨false, none⟩ rfl).2⟩

/-! ## Lifecycle claims -/

def bogusTask : TaskDefinition :=
  { id := "t-bogus", prompt := "p", tier := "bogus", description := "d", cwd := none,
    contextFiles := none, timeoutMs := none }

def quietOracle : SessionOracle :=
  { modelFound := true, setupError := none, deltas := [], promptError := none,
    timeoutFired := false, elapsedMs := 7 }

/-- Counterexample to C4 as stated: for a task with the unknown tier
"bogus", `runTask` does not raise — it resolves with a `TaskResult`
(`success := false`, the tier-lookup error message in `error`), because
`selectModel`'s throw lands in `runTask`'s catch-all. -/
theorem C4_counterexample :
    LifecycleManager.runTask bogusTask quietOracle
        = .ok (mkFailedResult bogusTask [] "Invalid task tier: bogus" 7) ∧
    (mkFailedResult bogusTask [] "Invalid task tier: bogus" 7).success = false ∧
    (mkFailedResult bogusTask [] "Invalid task tier: bogus" 7).error
        = some "Invalid task tier: bogus" :=
  ⟨rfl, rfl, rfl⟩

/-- C4 (amended): for every task whose tier is not one of the six known
tiers, `selectModel` raises the tier-lookup ConfigurationError, and
`runTask`'s catch-all converts it into a returned `TaskResult` with
`success := false` and that error message — the error is wrapped, not
propagated to the caller. -/
theorem C4_amended_unknown_tier_wrapped (task : TaskDefinition) (o : SessionOracle)
    (h : task.tier ∉ knownTiers) :
    selectModel task.tier = .error ("Invalid task tier: " ++ task.tier) ∧
    LifecycleManager.runTask task o
        = .ok (mkFailedResult task [] ("Invalid task tier: " ++ task.tier) o.elapsedMs) ∧
    (mkFailedResult task [] ("Invalid task tier: " ++ task.tier) o.elapsedMs).success
        = false ∧
    (mkFailedResult task [] ("Invalid task tier: " ++ task.tier) o.elapsedMs).error
        = some ("Invalid task tier: " ++ task.tier) := by
  have hsel : selectModel task.tier = .error ("Invalid task tier: " ++ task.tier) := by
    simp only [knownTiers, List.mem_cons, List.not_mem_nil, or_false, not_or] at h
    obtain ⟨h1, h2, h3, h4, h5, h6⟩ := h
    unfold selectModel
    rw [if_neg h1, if_neg h2, if_neg h3, if_neg h4, if_neg h5, if_neg h6]
  refine ⟨hsel, ?_, rfl, rfl⟩
  unfold LifecycleManager.runTask
  rw [hsel]

/-- Witness for the amended C4 at the concrete unknown tier "bogus". -/
theorem C4_witness :
    LifecycleManager.runTask bogusTask quietOracle
      = .ok (mkFailedResult bogusTask [] ("Invalid task tier: " ++ "bogus") 7) :=
  (C4_amended_unknown_tier_wrapped bogusTask quietOracle (by decide)).2.1

theorem truncateOutput_long (s : List Char) (h : s.length > MAX_OUTPUT_LENGTH) :
    truncateOutput s = s.drop (s.length - MAX_OUTPUT_LENGTH) ∧
      (truncateOutput s).length = MAX_OUTPUT_LENGTH := by
  unfold truncateOutput
  rw [if_pos h]
  refine ⟨rfl, ?_⟩
  rw [List.length_drop]
  unfold MAX_OUTPUT_LENGTH at *
  omega

def abBuffer : List Char :=
  List.replicate 5000 'A' ++ List.replicate 5000 'B'

def lightTask : TaskDefinition :=
  { id := "t-ab", prompt := "p", tier := "light", description := "d", cwd := none,
    contextFiles := none, timeoutMs := none }

def abOracleSuccess : SessionOracle :=
  { modelFound := true, setupError := none, deltas := [abBuffer], promptError := none,
    timeoutFired := false, elapsedMs := 3 }

def abOracleFailure : SessionOracle :=
  { modelFound := true, setupError := none, deltas := [abBuffer],
    promptError := some "boom", timeoutFired := false, elapsedMs := 3 }

/-- The TaskResult the success path returns on the A/B oracle. -/
def abResultSuccess : TaskResult :=
  { taskId := "t-ab", success := true,
    output := truncateOutput (([abBuffer] : List (List Char)).flatten),
    filesChanged := [], tokenUsage := { input := 0, output := 0 },
    costEstimate := 0, durationMs := 3, error := none }

/-- The TaskResult the failure path returns on the A/B oracle. -/
def abResultFailure : TaskResult :=
  { taskId := "t-ab", success := false,
    output := truncateOutput (([abBuffer] : List (List Char)).flatten),
    filesChanged := [], tokenUsage := { input := 0, output := 0 },
    costEstimate := 0, durationMs := 3, error := some "boom" }

theorem abBuffer_length : abBuffer.length = 10000 := by
  rw [abBuffer, List.length_append, List.length_replicate, List.length_replicate]

theorem abFlatten : ([abBuffer] : List (List Char)).flatten = abBuffer := by
  simp

theorem truncate_abBuffer : truncateOutput abBuffer = List.replicate 5000 'B' := by
  unfold truncateOutput
  rw [abBuffer_length]
  rw [if_pos (by norm_num [MAX_OUTPUT_LENGTH])]
  have h2 : (10000 : Nat) - MAX_OUTPUT_LENGTH = (List.replicate 5000 'A').length := by
    rw [List.length_replicate]
    norm_num [MAX_OUTPUT_LENGTH]
  rw [h2, abBuffer, List.drop_left]

set_option maxRecDepth 4000 in
/-- C5: on the success exit path and on both failure exit paths (prompt
rejection and timeout), an accumulated output buffer longer than 5000
units is truncated to exactly its last 5000 units; in particular a buffer
of 5000 A-units followed by 5000 B-units yields exactly the 5000 B-units
on both the success path and the failure path. -/
theorem C5_output_truncation (task : TaskDefinition) (o : SessionOracle)
    (sel : ModelSelection) (hsel : selectModel task.tier = .ok sel)
    (hm : o.modelFound = true) (hsetup : o.setupError = none)
    (hlen : o.deltas.flatten.length > MAX_OUTPUT_LENGTH) :
    (o.timeoutFired = false → o.promptError = none →
      ∃ r, LifecycleManager.runTask task o = .ok r ∧ r.success = true ∧
        r.output = o.deltas.flatten.drop (o.deltas.flatten.length - MAX_OUTPUT_LENGTH) ∧
        r.output.length = MAX_OUTPUT_LENGTH) ∧
    (∀ e, o.timeoutFired = false → o.promptError = some e →
      ∃ r, LifecycleManager.runTask task o = .ok r ∧ r.success = false ∧
        r.output = o.deltas.flatten.drop (o.deltas.flatten.length - MAX_OUTPUT_LENGTH) ∧
        r.output.length = MAX_OUTPUT_LENGTH) ∧
    (o.timeoutFired = true →
      ∃ r, LifecycleManager.runTask task o = .ok r ∧ r.success = false ∧
        r.output = o.deltas.flatten.drop (o.deltas.flatten.length - MAX_OUTPUT_LENGTH) ∧
        r.output.length = MAX_OUTPUT_LENGTH) ∧
    (∃ r, LifecycleManager.runTask lightTask abOracleSuccess = .ok r ∧ r.success = true ∧
      r.output = List.replicate 5000 'B') ∧
    (∃ r, LifecycleManager.runTask lightTask abOracleFailure = .ok r ∧ r.success = false ∧
      r.output = List.replicate 5000 'B') := by
  obtain ⟨htr, htrlen⟩ := truncateOutput_long o.deltas.flatten hlen
  refine ⟨?_, ?_, ?_, ?_, ?_⟩
  · intro htf hpe
    have hrun : LifecycleManager.runTask task o = .ok
          { taskId := task.id, success := true,
              output := truncateOutput o.deltas.flatten, filesChanged := [],
              tokenUsage := { input := 0, output := 0 }, costEstimate := 0,
              durationMs := (o.elapsedMs : Int), error := none } := by
      unfold LifecycleManager.runTask
      rw [hsel]
      simp [hm, hsetup, htf, hpe]
    exact ⟨_, hrun, rfl, htr, htrlen⟩
  · intro e htf hpe
    have hrun : LifecycleManager.runTask task o = .ok
          { taskId := task.id, success := false,
              output := truncateOutput o.deltas.flatten, filesChanged := [],
              tokenUsage := { input := 0, output := 0 }, costEstimate := 0,
              durationMs := (o.elapsedMs : Int), error := some e } := by
      unfold LifecycleManager.runTask
      rw [hsel]
      simp [mkFailedResult, hm, hsetup, htf, hpe]
    exact ⟨_, hrun, rfl, htr, htrlen⟩
  · intro htf
    have hrun : LifecycleManager.runTask task o = .ok
          { taskId := task.id, success := false,
              output := truncateOutput o.deltas.flatten, filesChanged := [],
              tokenUsage := { input := 0, output := 0 }, costEstimate := 0,
              durationMs := (o.elapsedMs : Int),
              error := some ("Task timeout after "
                ++ toString (task.timeoutMs.getD DEFAULT_TIMEOUT_MS) ++ "ms") } := by
      unfold LifecycleManager.runTask
      rw [hsel]
      simp [mkFailedResult, hm, hsetup, htf]
    exact ⟨_, hrun, rfl, htr, htrlen⟩
  · have hrunS : LifecycleManager.runTask lightTask abOracleSuccess
        = .ok abResultSuccess := rfl
    refine ⟨abResultSuccess, hrunS, rfl, ?_⟩
    simp only [abResultSuccess]
    rw [abFlatten, truncate_abBuffer]
  · have hrunF : LifecycleManager.runTask lightTask abOracleFailure
        = .ok abResultFailure := rfl
    refine ⟨abResultFailure, hrunF, rfl, ?_⟩
    simp only [abResultFailure]
    rw [abFlatten, truncate_abBuffer]

/-- Witness for C5: the success path on the concrete A/B buffer. -/
theorem C5_witness :
    ∃ r, LifecycleManager.runTask lightTask abOracleSuccess = .ok r ∧ r.success = true ∧
      r.output = List.replicate 5000 'B' :=
  (C5_output_truncation lightTask abOracleSuccess
    ⟨"anthropic", "claude-sonnet-4-5", "minimal"⟩ rfl rfl rfl
    (by show ([abBuffer] : List (List Char)).flatten.length > MAX_OUTPUT_LENGTH
        rw [abFlatten, abBuffer_length]
        norm_num [MAX_OUTPUT_LENGTH])).2.2.2.1

/-! ## Worktree-merge claims -/

theorem getDefaultBranch_trace (o : ExecOracle) :
    (WorktreeManager.getDefaultBranch o).2 = [GitCmd.symbolicRefOriginHead] ∨
    (WorktreeManager.getDefaultBranch o).2
      = [GitCmd.symbolicRefOriginHead, GitCmd.branchListMainMaster] := by
  unfold WorktreeManager.getDefaultBranch
  dsimp only
  cases hm2 : (if (o GitCmd.symbolicRefOriginHead).code = 0 then
      parseOriginHead (o GitCmd.symbolicRefOriginHead).stdout else none) with
  | none =>
    right
    rfl
  | some name =>
    left
    rfl

theorem mergeWorktreeMerge_ok (o : ExecOracle) (info : WorktreeInfo)
    (target : Option String) (t0 : String) (tr0 : List GitCmd)
    (hres : WorktreeManager.resolveTarget o target = (t0, tr0))
    (hcode : (o (.mergeNoFF info.branchName info.taskId)).code = 0) :
    WorktreeManager.mergeWorktreeMerge o info target =
      ({ success := true, mergedBranch := info.branchName, conflictFiles := none,
         error := none },
       tr0 ++ [GitCmd.checkout t0] ++ [GitCmd.mergeNoFF info.branchName info.taskId]
         ++ WorktreeManager.cleanup info) := by
  unfold WorktreeManager.mergeWorktreeMerge
  rw [hres]
  dsimp only
  rw [if_pos hcode]

theorem mergeWorktreeMerge_fail (o : ExecOracle) (info : WorktreeInfo)
    (target : Option String) (t0 : String) (tr0 : List GitCmd)
    (hres : WorktreeManager.resolveTarget o target = (t0, tr0))
    (hcode : ¬(o (.mergeNoFF info.branchName info.taskId)).code = 0) :
    WorktreeManager.mergeWorktreeMerge o info target =
      ({ success := false, mergedBranch := info.branchName,
         conflictFiles := some (parseFileLines (o GitCmd.diffUnmerged).stdout),
         error := some "Merge conflicts detected" },
       tr0 ++ [GitCmd.checkout t0] ++ [GitCmd.mergeNoFF info.branchName info.taskId]
         ++ [GitCmd.diffUnmerged, GitCmd.mergeAbort]) := by
  unfold WorktreeManager.mergeWorktreeMerge
  rw [hres]
  dsimp only
  rw [if_neg hcode]

theorem mergeWorktreeRebase_ok (o : ExecOracle) (info : WorktreeInfo)
    (target : Option String) (t0 : String) (tr0 : List GitCmd)
    (hres : WorktreeManager.resolveTarget o target = (t0, tr0))
    (hcode : (o (.rebaseOnto t0 info.branchName)).code = 0) :
    WorktreeManager.mergeWorktreeRebase o info target =
      ({ success := true, mergedBranch := info.branchName, conflictFiles := none,
         error := none },
       tr0 ++ [GitCmd.rebaseOnto t0 info.branchName]
         ++ [GitCmd.checkout t0, GitCmd.mergeFFOnly info.branchName]
         ++ WorktreeManager.cleanup info) := by
  unfold WorktreeManager.mergeWorktreeRebase
  rw [hres]
  dsimp only
  rw [if_pos hcode]

theorem mergeWorktreeRebase_resolved (o : ExecOracle) (info : WorktreeInfo)
    (target : Option String) (t0 : String) (tr0 : List GitCmd)
    (hres : WorktreeManager.resolveTarget o target = (t0, tr0))
    (hcode : ¬(o (.rebaseOnto t0 info.branchName)).code = 0)
    (hcont : (o GitCmd.rebaseContinue).code = 0) :
    WorktreeManager.mergeWorktreeRebase o info target =
      ({ success := true, mergedBranch := info.branchName, conflictFiles := none,
         error := none },
       tr0 ++ [GitCmd.rebaseOnto t0 info.branchName]
         ++ [GitCmd.checkoutTheirsAll, GitCmd.addAll, GitCmd.rebaseContinue]
         ++ [GitCmd.checkout t0, GitCmd.mergeFFOnly info.branchName]
         ++ WorktreeManager.cleanup info) := by
  unfold WorktreeManager.mergeWorktreeRebase
  rw [hres]
  dsimp only
  rw [if_neg hcode, if_pos hcont]

theorem mergeWorktreeRebase_fail (o : ExecOracle) (info : WorktreeInfo)
    (target : Option String) (t0 : String) (tr0 : List GitCmd)
    (hres : WorktreeManager.resolveTarget o target = (t0, tr0))
    (hcode : ¬(o (.rebaseOnto t0 info.branchName)).code = 0)
    (hcont : ¬(o GitCmd.rebaseContinue).code = 0) :
    WorktreeManager.mergeWorktreeRebase o info target =
      ({ success := false, mergedBranch := info.branchName,
         conflictFiles := some (parseFileLines (o GitCmd.diffUnmerged).stdout),
         error := some "Rebase conflicts could not be resolved" },
       tr0 ++ [GitCmd.rebaseOnto t0 info.branchName]
         ++ [GitCmd.checkoutTheirsAll, GitCmd.addAll, GitCmd.rebaseContinue]
         ++ [GitCmd.diffUnmerged, GitCmd.rebaseAbort]) := by
  unfold WorktreeManager.mergeWorktreeRebase
  rw [hres]
  dsimp only
  rw [if_neg hcode, if_neg hcont]

def c8Info : WorktreeInfo :=
  { taskId := "t1", worktreePath := "/repo/.worktrees/t1", branchName := "agent/t1",
    repoPath := "/repo" }

/-- An exec behavior under which the merge fails but the unmerged-path
listing is blank (e.g. `git merge --no-ff` refused for a reason other than
content conflicts). -/
def c8Oracle : ExecOracle := fun c =>
  match c with
  | .mergeNoFF _ _ => { stdout := "", stderr := "", code := 1 }
  | _ => { stdout := "", stderr := "", code := 0 }

/-- An exec behavior under which every git command succeeds. -/
def c8okOracle : ExecOracle := fun _ => { stdout := "", stderr := "", code := 0 }

/-- Counterexample to C8 as stated: a failed merge whose unmerged-path
listing is blank returns success=false with an EMPTY conflicting-path
list — the claim's "the returned conflicting-path list is non-empty" does
not hold on the code. -/
theorem C8_counterexample :
    (WorktreeManager.mergeWorktreeMerge c8Oracle c8Info (some "main")).1.success = false ∧
    (WorktreeManager.mergeWorktreeMerge c8Oracle c8Info (some "main")).1.conflictFiles
      = some [] := by
  constructor
  · rfl
  · rfl

/-- C8 (amended): for both revisions of `mergeWorktree`: success implies
cleanup (worktree removal and branch deletion) was executed and the
integration command for the target branch ran, with no conflict list;
failure implies the abort command was executed to restore the pre-attempt
state, cleanup was NOT executed (workspace and branch left in place), and
the conflicting-path list equals the parsed unmerged-path listing — which
is non-empty exactly when that listing contains a non-blank line, but can
be empty. -/
theorem C8_amended_merge_contract (o : ExecOracle) (info : WorktreeInfo)
    (target : Option String) :
    ((WorktreeManager.mergeWorktreeMerge o info target).1.success = true →
      GitCmd.worktreeRemove info.taskId ∈ (WorktreeManager.mergeWorktreeMerge o info target).2 ∧
      GitCmd.branchDelete info.branchName ∈ (WorktreeManager.mergeWorktreeMerge o info target).2 ∧
      GitCmd.mergeNoFF info.branchName info.taskId
        ∈ (WorktreeManager.mergeWorktreeMerge o info target).2 ∧
      (WorktreeManager.mergeWorktreeMerge o info target).1.conflictFiles = none) ∧
    ((WorktreeManager.mergeWorktreeMerge o info target).1.success = false →
      GitCmd.mergeAbort ∈ (WorktreeManager.mergeWorktreeMerge o info target).2 ∧
      (∀ tid, GitCmd.worktreeRemove tid ∉ (WorktreeManager.mergeWorktreeMerge o info target).2) ∧
      (∀ br, GitCmd.branchDelete br ∉ (WorktreeManager.mergeWorktreeMerge o info target).2) ∧
      (WorktreeManager.mergeWorktreeMerge o info target).1.conflictFiles
        = some (parseFileLines (o GitCmd.diffUnmerged).stdout) ∧
      (WorktreeManager.mergeWorktreeMerge o info target).1.error
        = some "Merge conflicts detected") ∧
    ((WorktreeManager.mergeWorktreeRebase o info target).1.success = true →
      GitCmd.worktreeRemove info.taskId
        ∈ (WorktreeManager.mergeWorktreeRebase o info target).2 ∧
      GitCmd.branchDelete info.branchName
        ∈ (WorktreeManager.mergeWorktreeRebase o info target).2 ∧
      GitCmd.mergeFFOnly info.branchName
        ∈ (WorktreeManager.mergeWorktreeRebase o info target).2 ∧
      (WorktreeManager.mergeWorktreeRebase o info target).1.conflictFiles = none) ∧
    ((WorktreeManager.mergeWorktreeRebase o info target).1.success = false →
      GitCmd.rebaseAbort ∈ (WorktreeManager.mergeWorktreeRebase o info target).2 ∧
      (∀ tid, GitCmd.worktreeRemove tid
        ∉ (WorktreeManager.mergeWorktreeRebase o info target).2) ∧
      (∀ br, GitCmd.branchDelete br
        ∉ (WorktreeManager.mergeWorktreeRebase o info target).2) ∧
      (WorktreeManager.mergeWorktreeRebase o info target).1.conflictFiles
        = some (parseFileLines (o GitCmd.diffUnmerged).stdout) ∧
      (WorktreeManager.mergeWorktreeRebase o info target).1.error
        = some "Rebase conflicts could not be resolved") := by
  obtain ⟨t0, tr0, hres, hben⟩ :
      ∃ t0 tr0, WorktreeManager.resolveTarget o target = (t0, tr0) ∧
        ∀ c ∈ tr0, c = GitCmd.symbolicRefOriginHead ∨ c = GitCmd.branchListMainMaster := by
    cases target with
    | some t => exact ⟨t, [], rfl, by simp⟩
    | none =>
      refine ⟨(WorktreeManager.getDefaultBranch o).1, (WorktreeManager.getDefaultBranch o).2,
        rfl, ?_⟩
      intro c hc
      rcases getDefaultBranch_trace o with h | h <;> rw [h] at hc <;> simp at hc <;> tauto
  refine ⟨?_, ?_, ?_, ?_⟩
  · intro hs
    by_cases hcode : (o (.mergeNoFF info.branchName info.taskId)).code = 0
    · rw [mergeWorktreeMerge_ok o info target t0 tr0 hres hcode]
      refine ⟨?_, ?_, ?_, rfl⟩ <;> simp [WorktreeManager.cleanup]
    · rw [mergeWorktreeMerge_fail o info target t0 tr0 hres hcode] at hs
      simp at hs
  · intro hf
    by_cases hcode : (o (.mergeNoFF info.branchName info.taskId)).code = 0
    · rw [mergeWorktreeMerge_ok o info target t0 tr0 hres hcode] at hf
      simp at hf
    · rw [mergeWorktreeMerge_fail o info target t0 tr0 hres hcode]
      refine ⟨by simp, ?_, ?_, rfl, rfl⟩
      · intro tid hmem
        simp at hmem
        rcases hben _ hmem with h | h <;> simp at h
      · intro br hmem
        simp at hmem
        rcases hben _ hmem with h | h <;> simp at h
  · intro hs
    by_cases hcode : (o (.rebaseOnto t0 info.branchName)).code = 0
    · rw [mergeWorktreeRebase_ok o info target t0 tr0 hres hcode]
      refine ⟨?_, ?_, ?_, rfl⟩ <;> simp [WorktreeManager.cleanup]
    · by_cases hcont : (o GitCmd.rebaseContinue).code = 0
      · rw [mergeWorktreeRebase_resolved o info target t0 tr0 hres hcode hcont]
        refine ⟨?_, ?_, ?_, rfl⟩ <;> simp [WorktreeManager.cleanup]
      · rw [mergeWorktreeRebase_fail o info target t0 tr0 hres hcode hcont] at hs
        simp at hs
  · intro hf
    by_cases hcode : (o (.rebaseOnto t0 info.branchName)).code = 0
    · rw [mergeWorktreeRebase_ok o info target t0 tr0 hres hcode] at hf
      simp at hf
    · by_cases hcont : (o GitCmd.rebaseContinue).code = 0
      · rw [mergeWorktreeRebase_resolved o info target t0 tr0 hres hcode hcont] at hf
        simp at hf
      · rw [mergeWorktreeRebase_fail o info target t0 tr0 hres hcode hcont]
        refine ⟨by simp, ?_, ?_, rfl, rfl⟩
        · intro tid hmem
          simp at hmem
          rcases hben _ hmem with h | h <;> simp at h
        · intro br hmem
          simp at hmem
          rcases hben _ hmem with h | h <;> simp at h

/-- Witness for the amended C8: a clean merge on concrete inputs executes
cleanup. -/
theorem C8_witness :
    GitCmd.worktreeRemove c8Info.taskId
        ∈ (WorktreeManager.mergeWorktreeMerge c8okOracle c8Info (some "main")).2 ∧
      GitCmd.branchDelete c8Info.branchName
        ∈ (WorktreeManager.mergeWorktreeMerge c8okOracle c8Info (some "main")).2 ∧
      GitCmd.mergeNoFF c8Info.branchName c8Info.taskId
        ∈ (WorktreeManager.mergeWorktreeMerge c8okOracle c8Info (some "main")).2 ∧
      (WorktreeManager.mergeWorktreeMerge c8okOracle c8Info (some "main")).1.conflictFiles
        = none :=
  (C8_amended_merge_contract c8okOracle c8Info (some "main")).1 rfl

/-! ## Scheduler claims -/

theorem filter_id_append_single (l : List AgentInfo) (b : AgentInfo) (id : String)
    (hl : mapGet l id = none) (hb : (b.taskId == id) = true) :
    (l ++ [b]).filter (fun a => a.taskId == id) = [b] := by
  rw [List.filter_append]
  have h1 : l.filter (fun a => a.taskId == id) = [] := by
    rw [List.filter_eq_nil_iff]
    exact fun a ha => (mapGet_eq_none_iff l id).mp hl a ha
  rw [h1]
  simp [List.filter_cons, hb]

/-- C2: submitting a task with a fresh id creates exactly one record for
that id; when the running count is under the maximum the record is started
(status running, start time stamped) and the task dispatched immediately
with the queue untouched, otherwise the task is appended to the queue and
the record stays queued with nothing dispatched; the returned snapshot is
the record the map holds, with the status of the branch taken. -/
theorem C2_submit_contract (p : AgentPool) (task : TaskDefinition) (now : Nat)
    (_hn : KeysNodup p.agents)
    (hfresh : mapGet p.agents task.id = none) :
    ((p.submit task now).1.agents.filter (fun a => a.taskId == task.id)).length = 1 ∧
    mapGet (p.submit task now).1.agents task.id = some (p.submit task now).2 ∧
    (p.runningCount < p.maxConcurrent →
      (p.submit task now).2.status = .running ∧
      (p.submit task now).2.startTime = some now ∧
      (p.submit task now).1.effects = p.effects ++ [.dispatch task.id] ∧
      (p.submit task now).1.taskQueue = p.taskQueue) ∧
    (¬p.runningCount < p.maxConcurrent →
      (p.submit task now).2.status = .queued ∧
      (p.submit task now).2.startTime = none ∧
      (p.submit task now).1.taskQueue.queue = p.taskQueue.queue ++ [task] ∧
      (p.submit task now).1.effects = p.effects) := by
  have hms : mapSet p.agents (mkAgentInfo task) = p.agents ++ [mkAgentInfo task] :=
    mapSet_fresh hfresh
  have hcnt : countRunning (mapSet p.agents (mkAgentInfo task)) = countRunning p.agents := by
    rw [hms, countRunning_append, countRunning_singleton, runBit_mkAgentInfo]
    omega
  have hfound : mapGet (p.agents ++ [mkAgentInfo task])
      (startInfo (mkAgentInfo task) now).taskId = some (mkAgentInfo task) := by
    have h0 : mapGet p.agents (startInfo (mkAgentInfo task) now).taskId = none := hfresh
    rw [mapGet_append_single, h0]
    simp [mkAgentInfo, startInfo]
  have hset2 : mapSet (p.agents ++ [mkAgentInfo task]) (startInfo (mkAgentInfo task) now)
      = p.agents ++ [startInfo (mkAgentInfo task) now] := by
    rw [mapSet_found hfound, List.map_append]
    congr 1
    · apply map_replace_of_none
      intro b hb hbeq
      exact (mapGet_eq_none_iff p.agents task.id).mp hfresh b hb
        (by simpa [startInfo, mkAgentInfo] using hbeq)
    · simp [mkAgentInfo, startInfo]
  rw [submit_eq, hms]
  by_cases hcap : countRunning (p.agents ++ [mkAgentInfo task]) < p.maxConcurrent
  · rw [if_pos hcap, startTask_eq]
    dsimp only
    rw [hset2]
    refine ⟨?_, ?_, fun _ => ⟨rfl, rfl, rfl, rfl⟩, fun hneg => absurd ?_ hneg⟩
    · rw [filter_id_append_single p.agents _ task.id hfresh (by simp [startInfo, mkAgentInfo])]
      rfl
    · rw [mapGet_append_single, hfresh]
      simp [mkAgentInfo, startInfo]
    · rw [runningCount_eq]
      rw [← hms, hcnt] at hcap
      exact hcap
  · rw [if_neg hcap]
    dsimp only
    refine ⟨?_, ?_, fun hpos => absurd ?_ hcap, fun _ => ⟨rfl, rfl, by simp [TaskQueue.enqueue], rfl⟩⟩
    · rw [filter_id_append_single p.agents _ task.id hfresh (by simp [mkAgentInfo])]
      rfl
    · rw [mapGet_append_single, hfresh]
      simp [mkAgentInfo]
    · rw [runningCount_eq] at hpos
      rw [← hms, hcnt]
      exact hpos

def c2Pool : AgentPool := initPool 2

def c2Task : TaskDefinition :=
  { id := "t-c2", prompt := "p", tier := "light", description := "d", cwd := none,
    contextFiles := none, timeoutMs := none }

/-- Witness for C2: submitting to an empty pool with capacity 2. -/
theorem C2_witness :
    ((c2Pool.submit c2Task 4).1.agents.filter (fun a => a.taskId == c2Task.id)).length = 1 ∧
    mapGet (c2Pool.submit c2Task 4).1.agents c2Task.id = some (c2Pool.submit c2Task 4).2 ∧
    (c2Pool.runningCount < c2Pool.maxConcurrent →
      (c2Pool.submit c2Task 4).2.status = .running ∧
      (c2Pool.submit c2Task 4).2.startTime = some 4 ∧
      (c2Pool.submit c2Task 4).1.effects = c2Pool.effects ++ [.dispatch c2Task.id] ∧
      (c2Pool.submit c2Task 4).1.taskQueue = c2Pool.taskQueue) ∧
    (¬c2Pool.runningCount < c2Pool.maxConcurrent →
      (c2Pool.submit c2Task 4).2.status = .queued ∧
      (c2Pool.submit c2Task 4).2.startTime = none ∧
      (c2Pool.submit c2Task 4).1.taskQueue.queue = c2Pool.taskQueue.queue ++ [c2Task] ∧
      (c2Pool.submit c2Task 4).1.effects = c2Pool.effects) :=
  C2_submit_contract c2Pool c2Task 4 (by simp [c2Pool, initPool, KeysNodup, agentKeys]) rfl

def c3Task : TaskDefinition :=
  { id := "t1", prompt := "p", tier := "light", description := "d", cwd := none,
    contextFiles := none, timeoutMs := none }

def c3Info : AgentInfo :=
  { taskId := "t1", description := "d", status := .running, tier := "light",
    startTime := some 0, endTime := none, result := none }

def c3Pool : AgentPool :=
  { agents := [c3Info], taskQueue := { queue := [] }, maxConcurrent := 1,
    budget := { records := [], lastSavedIndex := 0 }, effects := [] }

/-- A successful result whose cost 0.75 lies between the light tier's soft
(0.50) and hard (1.00) thresholds, so a soft warning is produced. -/
def c3Result : TaskResult :=
  { taskId := "t1", success := true, output := [], filesChanged := [],
    tokenUsage := { input := 0, output := 0 }, costEstimate := 3/4, durationMs := 5,
    error := none }

theorem c3_warning :
    warningFor c3Result "light" ⟨0.50, 1.00⟩
      = some (softWarningFor c3Result "light" ⟨0.50, 1.00⟩) := by
  rw [warningFor, if_neg (by norm_num [c3Result]), if_pos (by norm_num [c3Result])]

/-- Counterexample to C3 as stated: on a completion that produces a budget
warning, the warning callback fires BEFORE the completion callback, not
after it as the claim orders the steps. -/
theorem C3_counterexample :
    (c3Pool.completeEvent c3Task c3Result 9).effects
        = [PoolEffect.budgetAppend (mkBudgetRecord c3Result "light" 9),
           PoolEffect.warningCallback (softWarningFor c3Result "light" ⟨0.50, 1.00⟩),
           PoolEffect.completeCallback (finishInfo c3Info c3Result 9)] ∧
    (c3Pool.completeEvent c3Task c3Result 9).effects
        ≠ [PoolEffect.budgetAppend (mkBudgetRecord c3Result "light" 9),
           PoolEffect.completeCallback (finishInfo c3Info c3Result 9),
           PoolEffect.warningCallback (softWarningFor c3Result "light" ⟨0.50, 1.00⟩)] := by
  have heq := completeEvent_noQueue c3Pool c3Task c3Info c3Result 9 ⟨0.50, 1.00⟩ rfl rfl rfl
  constructor
  · rw [heq]
    simp only [c3Pool, c3Task, c3_warning, List.nil_append, Option.toList_some, List.map_cons,
      List.map_nil, List.cons_append, List.append_nil]
    simp [c3Result]
  · rw [heq]
    simp only [c3Pool, c3Task, c3_warning, List.nil_append, Option.toList_some, List.map_cons,
      List.map_nil, List.cons_append, List.append_nil]
    simp [c3Result]

/-- C3 (amended): on completion of a dispatched task the scheduler, in this
order, finishes the record (end time, result, status from
`result.success`), appends the BudgetRecord, forwards any budget warning,
invokes the completion callback (on success) or the failure callback (on
failure), and finally performs exactly one dequeue-and-dispatch from the
queue if one is waiting (capacity being guaranteed by the freed slot);
with an empty queue nothing is dispatched. -/
theorem C3_amended_completion_order (p : AgentPool) (task : TaskDefinition)
    (info : AgentInfo) (result : TaskResult) (now : Nat) (th : BudgetThresholds)
    (hn : KeysNodup p.agents)
    (ha : mapGet p.agents task.id = some info)
    (hrun : info.status = .running)
    (hcnt : countRunning p.agents ≤ p.maxConcurrent)
    (hth : getBudgetThresholds task.tier = .ok th) :
    (p.taskQueue.queue = [] →
      p.completeEvent task result now
        = { p with agents := mapSet p.agents (finishInfo info result now),
                   budget := { p.budget with
                     records := p.budget.records ++ [mkBudgetRecord result task.tier now] },
                   effects := p.effects
                     ++ [.budgetAppend (mkBudgetRecord result task.tier now)]
                     ++ ((warningFor result task.tier th).toList.map PoolEffect.warningCallback)
                     ++ [if result.success then .completeCallback (finishInfo info result now)
                         else .failedCallback (finishInfo info result now)] }) ∧
    (∀ (t : TaskDefinition) (rest : List TaskDefinition) (b : AgentInfo),
      p.taskQueue.queue = t :: rest → mapGet p.agents t.id = some b → t.id ≠ task.id →
      p.completeEvent task result now
        = { p with
              agents := mapSet (mapSet p.agents (finishInfo info result now))
                (startInfo b now),
              taskQueue := { queue := rest },
              budget := { p.budget with
                records := p.budget.records ++ [mkBudgetRecord result task.tier now] },
              effects := p.effects
                ++ [.budgetAppend (mkBudgetRecord result task.tier now)]
                ++ ((warningFor result task.tier th).toList.map PoolEffect.warningCallback)
                ++ [if result.success then .completeCallback (finishInfo info result now)
                    else .failedCallback (finishInfo info result now)]
                ++ [.dispatch t.id] }) :=
  ⟨fun hq => completeEvent_noQueue p task info result now th ha hth hq,
   fun t rest b hq hb hne =>
     completeEvent_promote p task info result now th t rest b hn ha hrun hcnt hth hq hb hne⟩

/-- Witness for the amended C3 on the concrete one-agent pool. -/
theorem C3_witness :
    c3Pool.completeEvent c3Task c3Result 9
      = { c3Pool with
            agents := mapSet c3Pool.agents (finishInfo c3Info c3Result 9),
            budget := { c3Pool.budget with
              records := c3Pool.budget.records ++ [mkBudgetRecord c3Result "light" 9] },
            effects := c3Pool.effects
              ++ [.budgetAppend (mkBudgetRecord c3Result "light" 9)]
              ++ ((warningFor c3Result "light" ⟨0.50, 1.00⟩).toList.map
                    PoolEffect.warningCallback)
              ++ [if c3Result.success then .completeCallback (finishInfo c3Info c3Result 9)
                  else .failedCallback (finishInfo c3Info c3Result 9)] } :=
  (C3_amended_completion_order c3Pool c3Task c3Info c3Result 9 ⟨0.50, 1.00⟩
    (by simp [KeysNodup, agentKeys, c3Pool]) rfl rfl
    (by simp [c3Pool, countRunning, c3Info]) rfl).1 rfl

/-- C9: a lifecycle rejection is normalized at the dispatch boundary into a
TaskResult with success=false, zero counters and the rejection message;
processing it transitions the record to failed (storing that result),
fires the failure callback, releases the concurrency slot, and a waiting
queued task is still promoted afterwards — the scheduler state remains
well-defined throughout. -/
theorem C9_rejection_containment (p : AgentPool) (task : TaskDefinition)
    (info : AgentInfo) (msg : String) (now : Nat) (th : BudgetThresholds)
    (hn : KeysNodup p.agents)
    (ha : mapGet p.agents task.id = some info)
    (hrun : info.status = .running)
    (hcnt : countRunning p.agents ≤ p.maxConcurrent)
    (hth : getBudgetThresholds task.tier = .ok th)
    (hsw : 0 ≤ th.softWarning) (hhw : 0 ≤ th.hardFlag) :
    (rejectionResult task info msg now).success = false ∧
    (rejectionResult task info msg now).costEstimate = 0 ∧
    (rejectionResult task info msg now).tokenUsage = { input := 0, output := 0 } ∧
    (rejectionResult task info msg now).output = [] ∧
    (rejectionResult task info msg now).error = some msg ∧
    (finishInfo info (rejectionResult task info msg now) now).status = .failed ∧
    (finishInfo info (rejectionResult task info msg now) now).result
        = some (rejectionResult task info msg now) ∧
    countRunning (mapSet p.agents (finishInfo info (rejectionResult task info msg now) now))
        + 1 = countRunning p.agents ∧
    (p.taskQueue.queue = [] →
      p.completeEvent task (rejectionResult task info msg now) now
        = { p with
              agents := mapSet p.agents
                (finishInfo info (rejectionResult task info msg now) now),
              budget := { p.budget with
                records := p.budget.records
                  ++ [mkBudgetRecord (rejectionResult task info msg now) task.tier now] },
              effects := p.effects
                ++ [.budgetAppend (mkBudgetRecord (rejectionResult task info msg now)
                      task.tier now)]
                ++ [.failedCallback
                      (finishInfo info (rejectionResult task info msg now) now)] }) ∧
    (∀ (t : TaskDefinition) (rest : List TaskDefinition) (b : AgentInfo),
      p.taskQueue.queue = t :: rest → mapGet p.agents t.id = some b → t.id ≠ task.id →
      (p.completeEvent task (rejectionResult task info msg now) now).taskQueue.queue = rest ∧
      mapGet (p.completeEvent task (rejectionResult task info msg now) now).agents t.id
          = some (startInfo b now) ∧
      (startInfo b now).status = .running ∧
      PoolEffect.dispatch t.id
          ∈ (p.completeEvent task (rejectionResult task info msg now) now).effects ∧
      countRunning (p.completeEvent task (rejectionResult task info msg now) now).agents
          ≤ p.maxConcurrent) := by
  have hsfail : (rejectionResult task info msg now).success = false := rfl
  have hwnone : warningFor (rejectionResult task info msg now) task.tier th = none := by
    rw [warningFor, if_neg, if_neg]
    · show ¬(rejectionResult task info msg now).costEstimate > th.softWarning
      have : (rejectionResult task info msg now).costEstimate = 0 := rfl
      rw [this]
      exact not_lt.mpr hsw
    · show ¬(rejectionResult task info msg now).costEstimate > th.hardFlag
      have : (rejectionResult task info msg now).costEstimate = 0 := rfl
      rw [this]
      exact not_lt.mpr hhw
  have htid : info.taskId = task.id := mapGet_some_taskId ha
  have hfin : (finishInfo info (rejectionResult task info msg now) now).taskId = task.id := by
    rw [taskId_finishInfo, htid]
  have hfound : mapGet p.agents
      (finishInfo info (rejectionResult task info msg now) now).taskId = some info := by
    rw [hfin]
    exact ha
  have hcnt1 : countRunning (mapSet p.agents
      (finishInfo info (rejectionResult task info msg now) now)) + 1
      = countRunning p.agents := by
    have hcf := countRunning_mapSet_found p.agents
      (finishInfo info (rejectionResult task info msg now) now) info hn hfound
    rw [runBit_finishInfo] at hcf
    have hr : runBit info = 1 := by simp [runBit, hrun]
    omega
  refine ⟨rfl, rfl, rfl, rfl, rfl, rfl, rfl, hcnt1, ?_, ?_⟩
  · intro hq
    have heq := completeEvent_noQueue p task info (rejectionResult task info msg now) now th
      ha hth hq
    rw [heq, hwnone]
    simp [hsfail]
  · intro t rest b hq hb hne
    have heq := completeEvent_promote p task info (rejectionResult task info msg now) now th
      t rest b hn ha hrun hcnt hth hq hb hne
    have hbid : b.taskId = t.id := mapGet_some_taskId hb
    have hX : mapGet (mapSet p.agents
        (finishInfo info (rejectionResult task info msg now) now)) t.id = some b := by
      rw [mapGet_mapSet_ne]
      · exact hb
      · rw [hfin]
        exact fun hEq => hne hEq.symm
    refine ⟨?_, ?_, rfl, ?_, ?_⟩
    · rw [heq]
    · rw [heq]
      dsimp only
      have hgs := mapGet_mapSet_self (mapSet p.agents
        (finishInfo info (rejectionResult task info msg now) now)) (startInfo b now)
      rw [taskId_startInfo, hbid] at hgs
      exact hgs
    · rw [heq]
      simp
    · rw [heq]
      dsimp only
      have hnX : KeysNodup (mapSet p.agents
          (finishInfo info (rejectionResult task info msg now) now)) :=
        keysNodup_mapSet _ _ hn
      have hfound2 : mapGet (mapSet p.agents
          (finishInfo info (rejectionResult task info msg now) now))
          (startInfo b now).taskId = some b := by
        rw [taskId_startInfo, hbid]
        exact hX
      have hc2 := countRunning_mapSet_found (mapSet p.agents
        (finishInfo info (rejectionResult task info msg now) now)) (startInfo b now) b
        hnX hfound2
      rw [runBit_startInfo] at hc2
      omega

def c9Task : TaskDefinition :=
  { id := "t1", prompt := "p", tier := "light", description := "d", cwd := none,
    contextFiles := none, timeoutMs := none }

def c9Task2 : TaskDefinition :=
  { id := "t2", prompt := "q", tier := "light", description := "e", cwd := none,
    contextFiles := none, timeoutMs := none }

def c9Info : AgentInfo :=
  { taskId := "t1", description := "d", status := .running, tier := "light",
    startTime := some 0, endTime := none, result := none }

def c9InfoB : AgentInfo :=
  { taskId := "t2", description := "e", status := .queued, tier := "light",
    startTime := none, endTime := none, result := none }

def c9Pool : AgentPool :=
  { agents := [c9Info, c9InfoB], taskQueue := { queue := [c9Task2] }, maxConcurrent := 1,
    budget := { records := [], lastSavedIndex := 0 }, effects := [] }

/-- Witness for C9: a rejection of running task t1 on a full pool with t2 queued;
t2 is promoted and the pool stays within its concurrency bound. -/
theorem C9_witness :
    (c9Pool.completeEvent c9Task (rejectionResult c9Task c9Info "boom" 7) 7).taskQueue.queue
        = [] ∧
    mapGet (c9Pool.completeEvent c9Task (rejectionResult c9Task c9Info "boom" 7) 7).agents
        c9Task2.id = some (startInfo c9InfoB 7) ∧
    (startInfo c9InfoB 7).status = .running ∧
    PoolEffect.dispatch c9Task2.id
        ∈ (c9Pool.completeEvent c9Task (rejectionResult c9Task c9Info "boom" 7) 7).effects ∧
    countRunning (c9Pool.completeEvent c9Task (rejectionResult c9Task c9Info "boom" 7) 7).agents
        ≤ c9Pool.maxConcurrent :=
  (C9_rejection_containment c9Pool c9Task c9Info "boom" 7 ⟨0.50, 1.00⟩
      (by simp [KeysNodup, agentKeys, c9Pool, c9Info, c9InfoB]) rfl rfl
      (by simp [c9Pool, countRunning, runBit, c9Info, c9InfoB]) rfl
      (by norm_num) (by norm_num)).2.2.2.2.2.2.2.2.2
    c9Task2 [] c9InfoB rfl rfl (by simp [c9Task, c9Task2])

/-- C1: the scheduler respects its concurrency bound at every reachable
state; a burst of M > N distinct-id submissions starts exactly the first N
immediately (dispatching them in submission order), leaves the remaining
M − N queued in submission order, and each completion of a running task
promotes exactly the head of the queue (FIFO), preserving the bound. -/
theorem C1_scheduler_fifo_invariant (N now : Nat) (tasks : List TaskDefinition)
    (events : List PoolEvent)
    (hids : (tasks.map (fun t => t.id)).Nodup)
    (hM : N < tasks.length) :
    countRunning (runTrace N events).agents ≤ N ∧
    (submitAll (initPool N) tasks now).agents
        = (tasks.take N).map (fun t => startInfo (mkAgentInfo t) now)
            ++ (tasks.drop N).map mkAgentInfo ∧
    (submitAll (initPool N) tasks now).taskQueue.queue = tasks.drop N ∧
    (tasks.take N).length = N ∧
    (tasks.drop N).length = tasks.length - N ∧
    (submitAll (initPool N) tasks now).effects
        = (tasks.take N).map (fun t => PoolEffect.dispatch t.id) ∧
    (∀ (p : AgentPool) (task : TaskDefinition) (info : AgentInfo) (result : TaskResult)
        (now2 : Nat) (th : BudgetThresholds) (t : TaskDefinition)
        (rest : List TaskDefinition) (b : AgentInfo),
      KeysNodup p.agents → mapGet p.agents task.id = some info →
      info.status = .running → countRunning p.agents ≤ p.maxConcurrent →
      getBudgetThresholds task.tier = .ok th →
      p.taskQueue.queue = t :: rest → mapGet p.agents t.id = some b →
      t.id ≠ task.id →
      (p.completeEvent task result now2).taskQueue.queue = rest ∧
      mapGet (p.completeEvent task result now2).agents t.id = some (startInfo b now2) ∧
      countRunning (p.completeEvent task result now2).agents ≤ p.maxConcurrent) := by
  have hwf := poolWF_runTrace N events
  have hcf := submitAll_closedForm N now tasks hids
  refine ⟨?_, hcf.1, hcf.2.1, ?_, ?_, hcf.2.2.1, ?_⟩
  · have hb := hwf.1.2
    rw [hwf.2] at hb
    exact hb
  · rw [List.length_take]
    omega
  · rw [List.length_drop]
  · intro p task info result now2 th t rest b hn ha hrun hcnt hth hq hb hne
    have heq := completeEvent_promote p task info result now2 th t rest b
      hn ha hrun hcnt hth hq hb hne
    have htid : info.taskId = task.id := mapGet_some_taskId ha
    have hbid : b.taskId = t.id := mapGet_some_taskId hb
    have hfin : (finishInfo info result now2).taskId = task.id := by
      rw [taskId_finishInfo, htid]
    have hX : mapGet (mapSet p.agents (finishInfo info result now2)) t.id = some b := by
      rw [mapGet_mapSet_ne]
      · exact hb
      · rw [hfin]
        exact fun hEq => hne hEq.symm
    refine ⟨?_, ?_, ?_⟩
    · rw [heq]
    · rw [heq]
      dsimp only
      have hgs := mapGet_mapSet_self (mapSet p.agents (finishInfo info result now2))
        (startInfo b now2)
      rw [taskId_startInfo, hbid] at hgs
      exact hgs
    · rw [heq]
      dsimp only
      have hfound : mapGet p.agents (finishInfo info result now2).taskId = some info := by
        rw [hfin]
        exact ha
      have hcnt1 : countRunning (mapSet p.agents (finishInfo info result now2)) + 1
          = countRunning p.agents := by
        have hcf2 := countRunning_mapSet_found p.agents (finishInfo info result now2) info
          hn hfound
        rw [runBit_finishInfo] at hcf2
        have hr : runBit info = 1 := by simp [runBit, hrun]
        omega
      have hnX : KeysNodup (mapSet p.agents (finishInfo info result now2)) :=
        keysNodup_mapSet _ _ hn
      have hfound2 : mapGet (mapSet p.agents (finishInfo info result now2))
          (startInfo b now2).taskId = some b := by
        rw [taskId_startInfo, hbid]
        exact hX
      have hc2 := countRunning_mapSet_found (mapSet p.agents (finishInfo info result now2))
        (startInfo b now2) b hnX hfound2
      rw [runBit_startInfo] at hc2
      omega

def c1T1 : TaskDefinition :=
  { id := "a1", prompt := "p", tier := "light", description := "d", cwd := none,
    contextFiles := none, timeoutMs := none }

def c1T2 : TaskDefinition :=
  { id := "a2", prompt := "q", tier := "light", description := "e", cwd := none,
    contextFiles := none, timeoutMs := none }

/-- Witness for C1 at N = 1, M = 2: the bound holds on a concrete trace, the
burst leaves t2 queued after dispatching only t1, and a concrete completion
promotes the queue head while staying within the bound. -/
theorem C1_witness :
    countRunning (runTrace 1 [PoolEvent.submitEvent c1T1 0,
        PoolEvent.submitEvent c1T2 1]).agents ≤ 1 ∧
    (submitAll (initPool 1) [c1T1, c1T2] 0).taskQueue.queue = [c1T1, c1T2].drop 1 ∧
    (submitAll (initPool 1) [c1T1, c1T2] 0).effects
        = ([c1T1, c1T2].take 1).map (fun t => PoolEffect.dispatch t.id) ∧
    (c9Pool.completeEvent c9Task c3Result 7).taskQueue.queue = [] ∧
    mapGet (c9Pool.completeEvent c9Task c3Result 7).agents c9Task2.id
        = some (startInfo c9InfoB 7) ∧
    countRunning (c9Pool.completeEvent c9Task c3Result 7).agents
        ≤ c9Pool.maxConcurrent := by
  have h := C1_scheduler_fifo_invariant 1 0 [c1T1, c1T2]
    [PoolEvent.submitEvent c1T1 0, PoolEvent.submitEvent c1T2 1]
    (by simp [c1T1, c1T2]) (by simp)
  have hv := h.2.2.2.2.2.2 c9Pool c9Task c9Info c3Result 7 ⟨0.50, 1.00⟩ c9Task2 [] c9InfoB
    (by simp [KeysNodup, agentKeys, c9Pool, c9Info, c9InfoB]) rfl rfl
    (by simp [c9Pool, countRunning, runBit, c9Info, c9InfoB]) rfl rfl rfl
    (by simp [c9Task, c9Task2])
  exact ⟨h.1, h.2.2.1, h.2.2.2.2.2.1, hv.1, hv.2.1, hv.2.2⟩
